import Mathlib

/-!
# Redmine users client (`user.go`)

A shallow embedding of `package redmine`, file `user.go`: the `users` resource of the
Redmine REST client, with the facts proved about it.

Conventions of the embedding.

* Go `int` is `Int` within the range that the build gives it (`IntSize`): the decoder stores
  an integer literal only when it lies in that range.  The one sum of the file, `i + 100` in
  `AllUsers`, is exact as long as the last offset of the loop lies in that range; beyond it
  Go's counter wraps and the loop of the model is not that of the code.  Go `string` is
  `String`; a Go slice is a `List` (the nil slice is `[]`); a Go pointer that may be nil is an
  `Option`.
* A Go result pair `(T, error)` is a Lean pair `T × Option GoError`; `none` is the nil error.
* The client's embedded `*http.Client` is a function `Env.Do` from the requests issued so far
  and the next request to its outcome, together with the log of requests issued, which every
  operation threads through.
* `encoding/json` is used through `json.NewDecoder(res.Body).Decode(&x)`.  A response body is
  modelled by what the decoder reads first: a JSON value, or nothing that is one; `scanBody`
  gives it for a body with a given text.  Storing the value into the Go types of this file
  follows the rules of `json.Unmarshal`.
* Declarations of the package that live outside `user.go` are fields of `Env`.
-/

namespace Redmine

/-! ## Go values used by the client -/

/-- A Go `error`, by where `user.go` obtains it. -/
inductive GoError where
  /-- The value of `errors.New(text)`: the error whose message is `text`. -/
  | new (text : String)
  /-- An error of `net/http` (building or sending a request) or of `URLWithFilter`. -/
  | transport (text : String)
  /-- The decoder did not find a JSON value at the start of the body. -/
  | scan (text : String)
  /-- The `UnmarshalTypeError` of `encoding/json`: a JSON value of kind `value` does not fit
  the Go type `goType`. -/
  | unmarshalType (value goType : String)
  deriving DecidableEq, Repr

/-- A JSON value.  Numbers are split into integer literals and all other number literals,
which do not fit a Go `int`. -/
inductive JSON where
  | null
  | bool (b : Bool)
  | int (n : Int)
  | nonint (literal : String)
  | str (s : String)
  | arr (items : List JSON)
  | obj (members : List (String × JSON))

/-- The name `encoding/json` gives the kind of a JSON value in an `UnmarshalTypeError`. -/
def JSON.kind : JSON → String
  | .null => "null"
  | .bool _ => "bool"
  | .int _ => "number"
  | .nonint literal => "number " ++ literal
  | .str _ => "string"
  | .arr _ => "array"
  | .obj _ => "object"

/-- What `json.NewDecoder(body).Decode` finds at the start of a response body. -/
inductive Body where
  /-- The body does not start with a JSON value (this includes the empty body); the decoder
  fails with the error `GoError.scan text`. -/
  | malformed (text : String)
  /-- The body starts with the JSON value `v`. -/
  | value (v : JSON)

structure Request where
  Method : String
  URL : String
  Header : List (String × String)
  Body : String
  deriving DecidableEq, Repr

structure Response where
  StatusCode : Int
  Body : Body

/-- The requests issued through the embedded `*http.Client`, oldest first. -/
abbrev Log := List Request

/-! ## Storing JSON into Go values (`json.Unmarshal`) -/

/-- Case folding of one character of an object key, as `encoding/json` compares keys with
field names: ASCII letters ignore case, and U+017F and U+212A fold to `s` and `k`. -/
def foldChar (ch : Char) : Char :=
  if ch = Char.ofNat 0x17F then 's'
  else if ch = Char.ofNat 0x212A then 'k'
  else ch.toLower

/-- An object key selects the field tagged `tag` when the two agree up to case folding. -/
def keyMatches (tag key : String) : Bool :=
  key.data.map foldChar == tag.data.map foldChar

/-- The size of Go's `int`, fixed by the build: 32 or 64 bits (`strconv.IntSize`). -/
inductive IntSize where
  | bits32
  | bits64
  deriving DecidableEq, Repr

/-- The largest `int`. -/
def IntSize.maxInt : IntSize → Int
  | .bits32 => 2147483647
  | .bits64 => 9223372036854775807

/-- The smallest `int`. -/
def IntSize.minInt : IntSize → Int
  | .bits32 => -2147483648
  | .bits64 => -9223372036854775808

/-- Store a JSON value into a Go `int`: `null` leaves it as it is, and an integer literal is
stored when it lies in the range of `int`. -/
def intInto (size : IntSize) (v : JSON) (old : Int) : Except GoError Int :=
  match v with
  | .null => .ok old
  | .int n =>
    if size.minInt ≤ n ∧ n ≤ size.maxInt then .ok n
    else .error (.unmarshalType ("number " ++ toString n) "int")
  | other => .error (.unmarshalType other.kind "int")

/-- Store a JSON value into a Go `string`: `null` leaves it as it is. -/
def stringInto (v : JSON) (old : String) : Except GoError String :=
  match v with
  | .null => .ok old
  | .str s => .ok s
  | other => .error (.unmarshalType other.kind "string")

/-- Decode the elements of a JSON array in order, each into a fresh element. -/
def decodeElems {α : Type} (elem : JSON → Except GoError α) : List JSON → Except GoError (List α)
  | [] => .ok []
  | x :: rest =>
    match elem x with
    | .error e => .error e
    | .ok a =>
      match decodeElems elem rest with
      | .error e => .error e
      | .ok as => .ok (a :: as)

/-- Store a JSON value into the Go slice `old`: `null` gives the nil slice, the empty array
the empty slice, and an array stored into an empty slice gives its decoded elements, each
decoded from the zero value.  An array stored into a slice that has elements (the key of the
slice occurs again in the object) is decoded into those elements: that case is left to
`again`. -/
def decodeSlice {α : Type} (again : List JSON → List α → Except GoError (List α))
    (elem : JSON → Except GoError α) (goType : String) :
    JSON → List α → Except GoError (List α)
  | .null, _ => .ok []
  | .arr [], _ => .ok []
  | .arr (x :: items), [] => decodeElems elem (x :: items)
  | .arr (x :: items), a :: old => again (x :: items) (a :: old)
  | other, _ => .error (.unmarshalType other.kind goType)

/-- Store the members of a JSON object, in order, into a struct value. -/
def decodeMembers {τ : Type} (field : String → JSON → τ → Except GoError τ) :
    List (String × JSON) → τ → Except GoError τ
  | [], t => .ok t
  | (k, v) :: rest, t =>
    match field k v t with
    | .error e => .error e
    | .ok t1 => decodeMembers field rest t1

/-- Store a JSON value into a Go struct: `null` leaves it as it is, an object stores each
member into the field its key selects. -/
def decodeStruct {τ : Type} (field : String → JSON → τ → Except GoError τ) (goType : String) :
    JSON → τ → Except GoError τ
  | .null, t => .ok t
  | .obj members, t => decodeMembers field members t
  | other, _ => .error (.unmarshalType other.kind goType)

/-- Store a JSON value into a Go pointer element: `null` gives the nil pointer. -/
def decodePtr {α : Type} (elem : JSON → Except GoError α) : JSON → Except GoError (Option α)
  | .null => .ok none
  | other =>
    match elem other with
    | .error e => .error e
    | .ok a => .ok (some a)

/-! ## The types of `user.go` -/

/-- The Go struct `User`; `Membership` and `CustomField` are declared outside `user.go`. -/
structure User (Membership CustomField : Type) where
  Id : Int
  Login : String
  Firstname : String
  Lastname : String
  Mail : String
  CreatedOn : String
  LatLoginOn : String
  Memberships : List Membership
  CustomFields : List (Option CustomField)

/-- The zero value of `User`. -/
def User.zero {M CF : Type} : User M CF :=
  { Id := 0, Login := "", Firstname := "", Lastname := "", Mail := "", CreatedOn := "",
    LatLoginOn := "", Memberships := [], CustomFields := [] }

structure userResult (M CF : Type) where
  User : User M CF

structure usersResult (M CF : Type) where
  Users : List (User M CF)

structure totalcount where
  TotalCount : Int
  deriving DecidableEq, Repr

structure StatusUser where
  Status : Int
  deriving DecidableEq, Repr

/-- The Go struct `Status`, whose only field is the anonymous struct `User`. -/
structure Status where
  User : StatusUser
  deriving DecidableEq, Repr

/-- Modelled from the spec: the struct `errorsResult` is declared outside `user.go`; it is the
error envelope, an object whose member `errors` is a list of strings. -/
structure errorsResult where
  Errors : List String
  deriving DecidableEq, Repr

/-- The client state that `user.go` reads and writes. -/
structure Client where
  endpoint : String
  apikey : String
  Limit : Int
  Offset : Int
  deriving DecidableEq, Repr

/-- What `user.go` uses and does not declare: the transport, the package helpers, the
decoders of the types declared elsewhere, and the parts of the Go libraries that are not
modelled. -/
structure Env (M CF F : Type) where
  /-- The size of `int` in the build. -/
  intSize : IntSize
  /-- Sending a request through the embedded `*http.Client`, given the requests sent before. -/
  Do : Log → Request → Except GoError Response
  /-- The error of `http.NewRequest(method, url, body)`, if any. -/
  NewRequest : String → String → Option GoError
  /-- The method `Client.getPaginationClause`. -/
  getPaginationClause : Client → String
  /-- The method `Client.URLWithFilter`. -/
  URLWithFilter : Client → String → F → Except GoError String
  /-- The helper `isHTTPStatusSuccessful`. -/
  isHTTPStatusSuccessful : Int → List Int → Bool
  /-- Storing JSON into a fresh `Membership`. -/
  decodeMembership : JSON → Except GoError M
  /-- Storing JSON into a fresh `CustomField`. -/
  decodeCustomField : JSON → Except GoError CF
  /-- The result of `fmt.Sprintf` on formats outside the directives modelled in `sprintfCore`. -/
  sprintfOther : String → List Int → String
  /-- Storing a JSON array into a slice that already has elements. -/
  redecodeSlice : (α : Type) → List JSON → List α → Except GoError (List α)
  /-- What the decoder finds in a body whose text is outside the JSON modelled in
  `scanText`. -/
  scanOther : String → Body

/-! ## Reading JSON text

The scanner of `encoding/json` on the texts whose first value is made of objects, arrays,
strings without escape, integer literals, `true`, `false` and `null`; on every other text the
functions give `none`, and `scanBody` leaves the outcome to `Env.scanOther`.  `fuel` bounds
the number of values read and `depth` counts the objects and arrays that are open, of which
the scanner allows 10000. -/

/-- The white space of JSON. -/
def isSpace (ch : Char) : Bool :=
  ch = ' ' || ch = '\t' || ch = '\n' || ch = '\r'

/-- Drop the white space at the start of a text. -/
def skipSpace : List Char → List Char
  | [] => []
  | ch :: rest => if isSpace ch then skipSpace rest else ch :: rest

/-- The value of a decimal digit. -/
def digitValue (ch : Char) : Option Nat :=
  if '0' ≤ ch ∧ ch ≤ '9' then some (ch.toNat - 48) else none

/-- Read the decimal digits at the start of the text after the value `acc` of the digits
read before. -/
def scanDigits : List Char → Nat → Nat × List Char
  | [], acc => (acc, [])
  | ch :: rest, acc =>
    match digitValue ch with
    | some d => scanDigits rest (acc * 10 + d)
    | none => (acc, ch :: rest)

/-- Read a JSON number literal without sign that is an integer: `0`, or digits that do not
start with `0`. -/
def scanNat : List Char → Option (Nat × List Char)
  | [] => none
  | ch :: rest =>
    if ch = '0' then some (0, rest)
    else
      match digitValue ch with
      | some _ => some (scanDigits (ch :: rest) 0)
      | none => none

/-- The characters that continue a number literal after its integer part. -/
def continuesNumber : List Char → Bool
  | [] => false
  | ch :: _ => ch = '.' || ch = 'e' || ch = 'E' || (digitValue ch).isSome

/-- Read a JSON number literal that is an integer, with its sign. -/
def scanInt (cs : List Char) : Option (Int × List Char) :=
  match cs with
  | [] => none
  | ch :: rest =>
    match (if ch = '-' then (scanNat rest).map (fun p => (-(p.1 : Int), p.2))
      else (scanNat cs).map (fun p => ((p.1 : Int), p.2))) with
    | none => none
    | some (n, after) => if continuesNumber after then none else some (n, after)

/-- Read a JSON string after its opening quote, when it has no escape: the characters up to
the closing quote. -/
def scanString : List Char → Option (List Char × List Char)
  | [] => none
  | ch :: rest =>
    if ch = '"' then some ([], rest)
    else if ch = '\\' ∨ ch.toNat < 0x20 then none
    else
      match scanString rest with
      | none => none
      | some (s, after) => some (ch :: s, after)

/-- Drop the literal `word` from the start of the text. -/
def dropWord : List Char → List Char → Option (List Char)
  | [], cs => some cs
  | _ :: _, [] => none
  | w :: word, ch :: rest => if w = ch then dropWord word rest else none

mutual
/-- Read one JSON value. -/
def scanValue : Nat → Nat → List Char → Option (JSON × List Char)
  | 0, _, _ => none
  | _ + 1, _, [] => none
  | fuel + 1, depth, ch :: rest =>
    if ch = '\x7b' then
      if depth < 10000 then
        match skipSpace rest with
        | [] => none
        | ch1 :: rest1 =>
          if ch1 = '\x7d' then some (.obj [], rest1)
          else if ch1 = '"' then
            match scanMembers fuel (depth + 1) rest1 with
            | none => none
            | some (members, after) => some (.obj members, after)
          else none
      else none
    else if ch = '[' then
      if depth < 10000 then
        match skipSpace rest with
        | [] => none
        | ch1 :: rest1 =>
          if ch1 = ']' then some (.arr [], rest1)
          else
            match scanElems fuel (depth + 1) (ch1 :: rest1) with
            | none => none
            | some (items, after) => some (.arr items, after)
      else none
    else if ch = '"' then
      match scanString rest with
      | none => none
      | some (s, after) => some (.str (String.mk s), after)
    else if ch = 't' then (dropWord "rue".data rest).map (fun after => (.bool true, after))
    else if ch = 'f' then (dropWord "alse".data rest).map (fun after => (.bool false, after))
    else if ch = 'n' then (dropWord "ull".data rest).map (fun after => (.null, after))
    else
      match scanInt (ch :: rest) with
      | none => none
      | some (n, after) => some (.int n, after)
/-- Read the members of a JSON object after the opening quote of a key. -/
def scanMembers : Nat → Nat → List Char → Option (List (String × JSON) × List Char)
  | 0, _, _ => none
  | fuel + 1, depth, cs =>
    match scanString cs with
    | none => none
    | some (key, after) =>
      match skipSpace after with
      | [] => none
      | colon :: rest =>
        if colon = ':' then
          match scanValue fuel depth (skipSpace rest) with
          | none => none
          | some (v, after1) =>
            match skipSpace after1 with
            | [] => none
            | ch :: rest1 =>
              if ch = '\x7d' then some ([(String.mk key, v)], rest1)
              else if ch = ',' then
                match skipSpace rest1 with
                | [] => none
                | quote :: rest2 =>
                  if quote = '"' then
                    match scanMembers fuel depth rest2 with
                    | none => none
                    | some (members, after2) => some ((String.mk key, v) :: members, after2)
                  else none
              else none
        else none
/-- Read the elements of a JSON array from the start of an element. -/
def scanElems : Nat → Nat → List Char → Option (List JSON × List Char)
  | 0, _, _ => none
  | fuel + 1, depth, cs =>
    match scanValue fuel depth cs with
    | none => none
    | some (v, after) =>
      match skipSpace after with
      | [] => none
      | ch :: rest =>
        if ch = ']' then some ([v], rest)
        else if ch = ',' then
          match scanElems fuel depth (skipSpace rest) with
          | none => none
          | some (items, after1) => some (v :: items, after1)
        else none
end

/-- The JSON value that the decoder reads at the start of a text, when the text is in the part
of JSON that is modelled.  A value that is not an object or an array has to be followed by
white space or by the end of the text. -/
def scanText (text : String) : Option JSON :=
  let cs := skipSpace text.data
  match scanValue (cs.length + 1) 0 cs with
  | none => none
  | some (.obj members, _) => some (.obj members)
  | some (.arr items, _) => some (.arr items)
  | some (v, after) =>
    match after with
    | [] => some v
    | ch :: _ => if isSpace ch then some v else none

/-- What `json.NewDecoder(body).Decode` finds at the start of a body whose text is `text`. -/
def scanBody {M CF F : Type} (env : Env M CF F) (text : String) : Body :=
  match scanText text with
  | some v => .value v
  | none => env.scanOther text

/-! ## Decoders of the types of `user.go` -/

/-- What `decoder.Decode(&x)` returns for a fresh decoder on a response body, where `zero` is
the value of `x` before the call. -/
def Decode {τ : Type} (into : JSON → τ → Except GoError τ) (body : Body) (zero : τ) :
    Except GoError τ :=
  match body with
  | .malformed text => .error (.scan text)
  | .value v => into v zero

/-- One member of a JSON object stored into a `User`, by the `json` tags of the struct. -/
def userField {M CF F : Type} (env : Env M CF F) (key : String) (v : JSON) (u : User M CF) :
    Except GoError (User M CF) :=
  if keyMatches "id" key then
    (intInto env.intSize v u.Id).map (fun x => { u with Id := x })
  else if keyMatches "login" key then (stringInto v u.Login).map (fun x => { u with Login := x })
  else if keyMatches "firstname" key then
    (stringInto v u.Firstname).map (fun x => { u with Firstname := x })
  else if keyMatches "lastname" key then
    (stringInto v u.Lastname).map (fun x => { u with Lastname := x })
  else if keyMatches "mail" key then (stringInto v u.Mail).map (fun x => { u with Mail := x })
  else if keyMatches "created_on" key then
    (stringInto v u.CreatedOn).map (fun x => { u with CreatedOn := x })
  else if keyMatches "last_login_on" key then
    (stringInto v u.LatLoginOn).map (fun x => { u with LatLoginOn := x })
  else if keyMatches "memberships" key then
    (decodeSlice (env.redecodeSlice M) env.decodeMembership "[]redmine.Membership" v
      u.Memberships).map (fun x => { u with Memberships := x })
  else if keyMatches "custom_fields" key then
    (decodeSlice (env.redecodeSlice (Option CF)) (decodePtr env.decodeCustomField)
      "[]*redmine.CustomField" v u.CustomFields).map (fun x => { u with CustomFields := x })
  else .ok u

def userInto {M CF F : Type} (env : Env M CF F) : JSON → User M CF → Except GoError (User M CF) :=
  decodeStruct (userField env) "redmine.User"

def userResultField {M CF F : Type} (env : Env M CF F) (key : String) (v : JSON)
    (r : userResult M CF) : Except GoError (userResult M CF) :=
  if keyMatches "user" key then (userInto env v r.User).map (fun x => { r with User := x })
  else .ok r

def userResultInto {M CF F : Type} (env : Env M CF F) :
    JSON → userResult M CF → Except GoError (userResult M CF) :=
  decodeStruct (userResultField env) "redmine.userResult"

def usersResultField {M CF F : Type} (env : Env M CF F) (key : String) (v : JSON)
    (r : usersResult M CF) : Except GoError (usersResult M CF) :=
  if keyMatches "users" key then
    (decodeSlice (env.redecodeSlice (User M CF)) (fun x => userInto env x User.zero)
      "[]redmine.User" v r.Users).map (fun x => { r with Users := x })
  else .ok r

def usersResultInto {M CF F : Type} (env : Env M CF F) :
    JSON → usersResult M CF → Except GoError (usersResult M CF) :=
  decodeStruct (usersResultField env) "redmine.usersResult"

def totalcountField {M CF F : Type} (env : Env M CF F) (key : String) (v : JSON)
    (r : totalcount) : Except GoError totalcount :=
  if keyMatches "total_count" key then
    (intInto env.intSize v r.TotalCount).map (fun x => { r with TotalCount := x })
  else .ok r

def totalcountInto {M CF F : Type} (env : Env M CF F) :
    JSON → totalcount → Except GoError totalcount :=
  decodeStruct (totalcountField env) "redmine.totalcount"

def errorsResultField {M CF F : Type} (env : Env M CF F) (key : String) (v : JSON)
    (r : errorsResult) : Except GoError errorsResult :=
  if keyMatches "errors" key then
    (decodeSlice (env.redecodeSlice String) (fun x => stringInto x "") "[]string" v
      r.Errors).map (fun x => { r with Errors := x })
  else .ok r

def errorsResultInto {M CF F : Type} (env : Env M CF F) :
    JSON → errorsResult → Except GoError errorsResult :=
  decodeStruct (errorsResultField env) "redmine.errorsResult"

def statusUserField {M CF F : Type} (env : Env M CF F) (key : String) (v : JSON)
    (r : StatusUser) : Except GoError StatusUser :=
  if keyMatches "status" key then
    (intInto env.intSize v r.Status).map (fun x => { r with Status := x })
  else .ok r

def statusField {M CF F : Type} (env : Env M CF F) (key : String) (v : JSON) (r : Status) :
    Except GoError Status :=
  if keyMatches "user" key then
    (decodeStruct (statusUserField env) "struct" v r.User).map (fun x => { r with User := x })
  else .ok r

def statusInto {M CF F : Type} (env : Env M CF F) : JSON → Status → Except GoError Status :=
  decodeStruct (statusField env) "redmine.Status"

/-- The text that `json.Marshal` writes for a `Status`: the object with the member `user`,
itself the object with the member `status`, an integer in decimal; compact, and with no
string to escape. -/
def statusText (status : Status) : String :=
  "\x7b\"user\":\x7b\"status\":" ++ toString status.User.Status ++ "\x7d\x7d"

/-- The call `json.Marshal(status)`; marshalling a struct of integers does not fail. -/
def jsonMarshalStatus (status : Status) : Except GoError String :=
  .ok (statusText status)

/-! ## `fmt.Sprintf` -/

/-- The characters that, right after `%`, start a flag, a width, a precision or an argument
index. -/
def isDirectiveChar (ch : Char) : Bool :=
  ch ∈ ['#', '0', '+', '-', ' ', '1', '2', '3', '4', '5', '6', '7', '8', '9', '[', '*', '.']

/-- The part of `fmt.Sprintf(format, args...)` with `int` operands that is modelled: text is
copied, `%%` writes `%`, `%d` writes the next operand in decimal, a verb with no operand left
writes `%!verb(MISSING)`, and a lone `%` at the end writes `%!(NOVERB)`.  Every other
directive, and operands left over, give `none`. -/
def sprintfCore : List Char → List Int → Option (List Char)
  | [], [] => some []
  | [], _ :: _ => none
  | [ch], args =>
    if ch = '%' then (if args = [] then some "%!(NOVERB)".data else none)
    else if args = [] then some [ch] else none
  | ch :: verb :: rest, args =>
    if ch ≠ '%' then (sprintfCore (verb :: rest) args).map (fun out => ch :: out)
    else if verb = '%' then (sprintfCore rest args).map (fun out => '%' :: out)
    else if isDirectiveChar verb then none
    else
      match args with
      | [] => (sprintfCore rest []).map (fun out => "%!".data ++ verb :: "(MISSING)".data ++ out)
      | a :: args1 =>
        if verb = 'd' then (sprintfCore rest args1).map (fun out => (toString a).data ++ out)
        else none

def Sprintf {M CF F : Type} (env : Env M CF F) (format : String) (args : List Int) : String :=
  match sprintfCore format.data args with
  | some out => String.mk out
  | none => env.sprintfOther format args

/-! ## The embedded `*http.Client` -/

/-- The method `Do` of the embedded client: the request is sent and logged. -/
def Client.Do {M CF F : Type} (env : Env M CF F) (req : Request) (log : Log) :
    Except GoError Response × Log :=
  (env.Do log req, log ++ [req])

/-- The request that `Get` of the embedded client builds for `url`. -/
def getRequest (url : String) : Request :=
  { Method := "GET", URL := url, Header := [], Body := "" }

/-- The method `Get` of the embedded client: `http.NewRequest("GET", url, nil)`, then `Do`. -/
def Client.Get {M CF F : Type} (env : Env M CF F) (url : String) (log : Log) :
    Except GoError Response × Log :=
  match env.NewRequest "GET" url with
  | some err => (.error err, log)
  | none => Client.Do env (getRequest url) log

/-! ## The operations of `user.go` -/

/-- The status dispatch that every read operation repeats (lines 96-104 of `Users`): with a
status other than 200 the body is decoded as an error envelope and `err` ends up non-nil
either way; with status 200 the body is decoded into `r`.  Returns `r` and `err`; when the
decoding of `r` fails the callers do not read `r`. -/
def decodeRead {M CF F τ : Type} (env : Env M CF F) (into : JSON → τ → Except GoError τ)
    (zero : τ) (res : Response) :
    τ × Option GoError :=
  if res.StatusCode ≠ 200 then
    match Decode (errorsResultInto env) res.Body { Errors := [] } with
    | .error err => (zero, some err)
    | .ok er => (zero, some (GoError.new ("\n".intercalate er.Errors)))
  else
    match Decode into res.Body zero with
    | .error err => (zero, some err)
    | .ok r => (r, none)

/-- The URL of `Users` and of `totalCount`. -/
def usersURL {M CF F : Type} (env : Env M CF F) (c : Client) : String :=
  c.endpoint ++ "/users.json?key=" ++ c.apikey ++ env.getPaginationClause c

/-- The request that `Users` and `totalCount` send in the client state `c`. -/
def usersRequest {M CF F : Type} (env : Env M CF F) (c : Client) : Request :=
  getRequest (usersURL env c)

def Client.Users {M CF F : Type} (env : Env M CF F) (c : Client) (log : Log) :
    (List (User M CF) × Option GoError) × Log :=
  match Client.Get env (usersURL env c) log with
  | (.error err, log1) => (([], some err), log1)
  | (.ok res, log1) =>
    match decodeRead env (usersResultInto env) { Users := [] } res with
    | (_, some err) => (([], some err), log1)
    | (r, none) => ((r.Users, none), log1)

def Client.totalCount {M CF F : Type} (env : Env M CF F) (c : Client) (log : Log) :
    (Int × Option GoError) × Log :=
  match Client.Get env (usersURL env c) log with
  | (.error err, log1) => ((0, some err), log1)
  | (.ok res, log1) =>
    match decodeRead env (totalcountInto env) { TotalCount := 0 } res with
    | (_, some err) => ((0, some err), log1)
    | (r, none) => ((r.TotalCount, none), log1)

/-- The loop of `AllUsers` from the test `i < count` on: the first component is `some err`
when the loop is left by `return nil, err`, and the users gathered otherwise.  The counter
takes the values 0, 100, ..., up to the first one that is not below `count`; the sum
`i + 100` is that of Go as long as these values are at most the largest `int`
(`100 * pageCount count ≤ maxInt`), which is the case for every `count` that is at most
`maxInt - 99`; for a larger `count` Go's counter wraps and this loop is not that of the
code. -/
def allUsersLoop {M CF F : Type} (env : Env M CF F) (count i : Int) (c : Client) (log : Log)
    (allUsers : List (User M CF)) : (List (User M CF) × Option GoError) × Client × Log :=
  if i < count then
    let c1 := { c with Offset := i }
    match Client.Users env c1 log with
    | ((_, some err), log1) => (([], some err), c1, log1)
    | ((users, none), log1) => allUsersLoop env count (i + 100) c1 log1 (allUsers ++ users)
  else ((allUsers, none), c, log)
termination_by (count - i).toNat
decreasing_by omega

def Client.AllUsers {M CF F : Type} (env : Env M CF F) (c : Client) (log : Log) :
    (List (User M CF) × Option GoError) × Client × Log :=
  match Client.totalCount env c log with
  | ((_, some err), log1) => (([], some err), c, log1)
  | ((count, none), log1) =>
    match allUsersLoop env count 0 { c with Limit := 100 } log1 [] with
    | ((_, some err), c1, log2) => (([], some err), c1, log2)
    | ((allUsers, none), c1, log2) => ((allUsers, none), { c1 with Offset := 0 }, log2)

/-- The URL that `SetUserStatus` builds with `fmt.Sprintf`. -/
def setUserStatusURL {M CF F : Type} (env : Env M CF F) (c : Client) (userID : Int) : String :=
  Sprintf env (c.endpoint ++ "/users/%d.json?key=" ++ c.apikey) [userID]

/-- The request that `SetUserStatus` builds: the payload `s` is put to `url` as JSON. -/
def putRequest (url s : String) : Request :=
  { Method := "PUT", URL := url, Header := [("Content-Type", "application/json")], Body := s }

def Client.SetUserStatus {M CF F : Type} (env : Env M CF F) (c : Client) (status : Status)
    (userID : Int) (log : Log) : Option GoError × Log :=
  match jsonMarshalStatus status with
  | .error err => (some err, log)
  | .ok s =>
    let url := setUserStatusURL env c userID
    match env.NewRequest "PUT" url with
    | some err => (some err, log)
    | none =>
      match Client.Do env (putRequest url s) log with
      | (.error err, log1) => (some err, log1)
      | (.ok res, log1) =>
        if res.StatusCode ≠ 204 then
          let err : Option GoError :=
            if !env.isHTTPStatusSuccessful res.StatusCode [201] then
              match Decode (errorsResultInto env) res.Body { Errors := [] } with
              | .error err => some err
              | .ok er => some (GoError.new ("\n".intercalate er.Errors))
            else none
          match err with
          | some err => (some err, log1)
          | none => (none, log1)
        else (none, log1)

/-- The request of the filtered reads: a GET of `uri` with the API key in a header. -/
def filteredRequest (c : Client) (uri : String) : Request :=
  { Method := "GET", URL := uri, Header := [("X-Redmine-API-Key", c.apikey)], Body := "" }

def Client.UsersWithFilter {M CF F : Type} (env : Env M CF F) (c : Client) (filter : F) (log : Log) :
    (List (User M CF) × Option GoError) × Log :=
  match env.URLWithFilter c "/users.json" filter with
  | .error err => (([], some err), log)
  | .ok uri =>
    match env.NewRequest "GET" uri with
    | some err => (([], some err), log)
    | none =>
      match Client.Do env (filteredRequest c uri) log with
      | (.error err, log1) => (([], some err), log1)
      | (.ok res, log1) =>
        match decodeRead env (usersResultInto env) { Users := [] } res with
        | (_, some err) => (([], some err), log1)
        | (r, none) => ((r.Users, none), log1)

/-- The URL of `User`. -/
def userURL (c : Client) (id : Int) : String :=
  c.endpoint ++ "/users/" ++ toString id ++ ".json?key=" ++ c.apikey

def Client.User {M CF F : Type} (env : Env M CF F) (c : Client) (id : Int) (log : Log) :
    (Option (User M CF) × Option GoError) × Log :=
  match Client.Get env (userURL c id) log with
  | (.error err, log1) => ((none, some err), log1)
  | (.ok res, log1) =>
    match decodeRead env (userResultInto env) { User := User.zero } res with
    | (_, some err) => ((none, some err), log1)
    | (r, none) => ((some r.User, none), log1)

def Client.UserByIdAndFilter {M CF F : Type} (env : Env M CF F) (c : Client) (id : Int) (filter : F)
    (log : Log) : (Option (Redmine.User M CF) × Option GoError) × Log :=
  match env.URLWithFilter c ("/users/" ++ toString id ++ ".json") filter with
  | .error err => ((none, some err), log)
  | .ok uri =>
    match env.NewRequest "GET" uri with
    | some err => ((none, some err), log)
    | none =>
      match Client.Do env (filteredRequest c uri) log with
      | (.error err, log1) => ((none, some err), log1)
      | (.ok res, log1) =>
        match decodeRead env (userResultInto env) { User := Redmine.User.zero } res with
        | (_, some err) => ((none, some err), log1)
        | (r, none) => ((some r.User, none), log1)

/-! ## Vocabulary of the statements -/

/-- The transport accepts the request `req` after `log` (`http.NewRequest` builds it without
error) and answers it with `res`. -/
def Answers {M CF F : Type} (env : Env M CF F) (log : Log) (req : Request) (res : Response) :
    Prop :=
  env.NewRequest req.Method req.URL = none ∧ env.Do log req = .ok res

/-- The error envelope with the messages `ss`, in order. -/
def errorsEnvelope (ss : List String) : JSON :=
  .obj [("errors", .arr (ss.map JSON.str))]

/-- The list envelope with the user objects `users` and the total count `n`. -/
def listEnvelope (users : List JSON) (n : Int) : JSON :=
  .obj [("users", .arr users), ("total_count", .int n)]

/-- The client state in which `AllUsers` fetches page `k`: `Limit` 100, `Offset` 100 k. -/
def pageClient (c : Client) (k : Nat) : Client :=
  { c with Limit := 100, Offset := 100 * (k : Int) }

/-- The requests of the pages 0, ..., n - 1 of `AllUsers`, in order. -/
def pageRequests {M CF F : Type} (env : Env M CF F) (c : Client) (n : Nat) : List Request :=
  (List.range n).map (fun k => usersRequest env (pageClient c k))

/-- The log after the total-count request and the requests of the pages 0, ..., n - 1. -/
def afterPages {M CF F : Type} (env : Env M CF F) (c : Client) (log : Log) (n : Nat) : Log :=
  log ++ usersRequest env c :: pageRequests env c n

/-- The number of offsets 0, 100, 200, ... below `count`. -/
def pageCount (count : Int) : Nat :=
  ((count + 99) / 100).toNat

/-- The client state at the loop test of `AllUsers` after `n` pages have been fetched. -/
def loopClient (c : Client) : Nat → Client
  | 0 => { c with Limit := 100 }
  | n + 1 => pageClient c n

/-- The helper `isHTTPStatusSuccessful(code, accepted)` holds exactly when `code` is a member
of `accepted`. -/
def HelperSpec {M CF F : Type} (env : Env M CF F) : Prop :=
  ∀ (code : Int) (accepted : List Int),
    env.isHTTPStatusSuccessful code accepted = true ↔ code ∈ accepted

/-! ## Scenarios -/

/-- A transport and package helpers for the scenarios: a build with an `int` of 64 bits,
every request can be built, the pagination clause spells out `Limit` and `Offset`, and the
types declared elsewhere carry no data.  The parts of the Go libraries that are left to the
environment (`sprintfOther`, `redecodeSlice`, `scanOther`) get arbitrary values: no scenario
has a format, a repeated key or a text that reaches them. -/
def scenarioEnv (answer : Log → Request → Except GoError Response) : Env Unit Unit Unit where
  Do := answer
  NewRequest := fun _ _ => none
  getPaginationClause := fun c =>
    "&limit=" ++ toString c.Limit ++ "&offset=" ++ toString c.Offset
  URLWithFilter := fun c path _ => .ok (c.endpoint ++ path)
  isHTTPStatusSuccessful := fun code accepted => accepted.contains code
  decodeMembership := fun _ => .ok ()
  decodeCustomField := fun _ => .ok ()
  sprintfOther := fun format _ => format
  intSize := .bits64
  redecodeSlice := fun _ _ old => .ok old
  scanOther := fun _ => .malformed "invalid character"

/-- The client of the scenarios, with pagination state left over from earlier calls. -/
def scenarioClient : Client :=
  { endpoint := "https://r.example", apikey := "k1", Limit := 25, Offset := 5 }

/-- The user object of the one-user scenario. -/
def userOneJSON : JSON :=
  .obj [("id", .int 1), ("login", .str "admin")]

/-- The user that `userOneJSON` decodes to. -/
def userOne : User Unit Unit :=
  { User.zero with Id := 1, Login := "admin" }

/-- Every request is answered with status 200 and the list envelope of one user with id 1. -/
def envOneUser : Env Unit Unit Unit :=
  scenarioEnv (fun _ _ => .ok ⟨200, .value (listEnvelope [userOneJSON] 1)⟩)

/-- The server is unreachable. -/
def envDown : Env Unit Unit Unit :=
  scenarioEnv (fun _ _ => .error (.transport "connection refused"))

/-- The server reports 150 users and answers the count and the first page; from the third
request on the connection fails. -/
def envSecondPageFails : Env Unit Unit Unit :=
  scenarioEnv (fun log _ =>
    if log.length < 2 then .ok ⟨200, .value (listEnvelope [userOneJSON] 150)⟩
    else .error (.transport "connection reset"))

/-- The user object with the given id and no other member. -/
def userJSON (id : Nat) : JSON :=
  .obj [("id", .int id)]

/-- The user that `userJSON id` decodes to. -/
def userOf (id : Nat) : User Unit Unit :=
  { User.zero with Id := id }

/-- The server holds the 101 users with the ids 0, ..., 100: the request with offset 100 is
answered with the last user, every other list request with the first hundred, each time
with total count 101. -/
def envTwoPages : Env Unit Unit Unit :=
  scenarioEnv (fun _ req =>
    if req.URL = "https://r.example/users.json?key=k1&limit=100&offset=100" then
      .ok ⟨200, .value (listEnvelope [userJSON 100] 101)⟩
    else .ok ⟨200, .value (listEnvelope ((List.range 100).map userJSON) 101)⟩)

/-- The server holds no user: every request is answered with status 200, an empty list and
total count 0. -/
def envNoUsers : Env Unit Unit Unit :=
  scenarioEnv (fun _ _ => .ok ⟨200, .value (listEnvelope [] 0)⟩)

/-- A build with an `int` of 64 bits whose server reports a total count of 2^63, one more
than the largest `int`, with status 200 and an empty list. -/
def envHugeCount : Env Unit Unit Unit :=
  scenarioEnv (fun _ _ => .ok ⟨200, .value (listEnvelope [] 9223372036854775808)⟩)

/-- A build with an `int` of 32 bits whose server reports a total count of 2^31, one more
than the largest `int`, with status 200 and an empty list. -/
def envHugeCount32 : Env Unit Unit Unit :=
  { scenarioEnv (fun _ _ => .ok ⟨200, .value (listEnvelope [] 2147483648)⟩) with
    intSize := .bits32 }

/-- Every request is answered with status 422 and the error envelope of one message. -/
def envStatusInvalid : Env Unit Unit Unit :=
  scenarioEnv (fun _ _ => .ok ⟨422, .value (errorsEnvelope ["Status is invalid"])⟩)

/-- Every request is answered with status 200 and a body that is an HTML page. -/
def envNotJSON : Env Unit Unit Unit :=
  scenarioEnv (fun _ _ =>
    .ok ⟨200, .malformed "invalid character '<' looking for beginning of value"⟩)

/-- Every request is answered with status 502 and a body that is an HTML page. -/
def envBadGateway : Env Unit Unit Unit :=
  scenarioEnv (fun _ _ =>
    .ok ⟨502, .malformed "invalid character '<' looking for beginning of value"⟩)

/-- Every request is answered with status 204 and an empty body. -/
def envNoContent : Env Unit Unit Unit :=
  scenarioEnv (fun _ _ => .ok ⟨204, .malformed "EOF"⟩)

/-! # Facts -/

section Facts

variable {M CF F : Type}

/-! ## The transport -/

theorem Do_of_answers (env : Env M CF F) (log : Log) (req : Request) (res : Response)
    (h : Answers env log req res) : Client.Do env req log = (.ok res, log ++ [req]) := by
  simp [Client.Do, h.2]

theorem Get_of_answers (env : Env M CF F) (log : Log) (url : String) (res : Response)
    (h : Answers env log (getRequest url) res) :
    Client.Get env url log = (.ok res, log ++ [getRequest url]) := by
  have h1 : env.NewRequest "GET" url = none := h.1
  simp [Client.Get, h1, Do_of_answers env log _ res h]

/-- A call of `Get` that returns a response has logged exactly its request. -/
theorem Get_log_of_ok (env : Env M CF F) (url : String) (log log1 : Log) (res : Response)
    (h : Client.Get env url log = (.ok res, log1)) : log1 = log ++ [getRequest url] := by
  unfold Client.Get at h
  cases hn : env.NewRequest "GET" url with
  | some err => simp [hn] at h
  | none =>
    simp [hn, Client.Do] at h
    exact h.2.symm

/-! ## Decimal digits -/

theorem digitChar_value : ∀ d, d < 10 →
    digitValue (Nat.digitChar d) = some d ∧ (d ≠ 0 → Nat.digitChar d ≠ '0') := by
  decide

theorem toDigitsCore_append (fuel : Nat) : ∀ (n : Nat) (ds : List Char),
    Nat.toDigitsCore 10 fuel n ds = Nat.toDigitsCore 10 fuel n [] ++ ds := by
  induction fuel with
  | zero => intro n ds; simp [Nat.toDigitsCore]
  | succ fuel ih =>
    intro n ds
    simp only [Nat.toDigitsCore]
    split_ifs
    · simp
    · rw [ih (n / 10) (Nat.digitChar (n % 10) :: ds), ih (n / 10) [Nat.digitChar (n % 10)]]
      simp

theorem scanDigits_snoc (cs : List Char) : ∀ (acc : Nat) (d : Char) (k : Nat) (rest : List Char),
    digitValue d = some k → (∀ ch ∈ cs, (digitValue ch).isSome) →
    scanDigits (cs ++ d :: rest) acc =
      scanDigits rest ((scanDigits cs acc).1 * 10 + k) := by
  induction cs with
  | nil => intro acc d k rest hd _; simp [scanDigits, hd]
  | cons c cs ih =>
    intro acc d k rest hd hall
    obtain ⟨v, hv⟩ := Option.isSome_iff_exists.mp (hall c (List.mem_cons_self _ _))
    simp only [List.cons_append, scanDigits, hv]
    exact ih _ d k rest hd (fun ch hch => hall ch (List.mem_cons_of_mem _ hch))

/-- The decimal digits of `n`, as `Nat.repr` writes them, are digits, read back give `n`, and
do not start with `0` unless `n` is 0. -/
theorem toDigitsCore_spec (fuel : Nat) : ∀ n, n < fuel →
    (∀ ch ∈ Nat.toDigitsCore 10 fuel n [], (digitValue ch).isSome) ∧
    (scanDigits (Nat.toDigitsCore 10 fuel n []) 0).1 = n ∧
    (∃ ch tail, Nat.toDigitsCore 10 fuel n [] = ch :: tail ∧ (digitValue ch).isSome ∧
      (n ≠ 0 → ch ≠ '0')) := by
  induction fuel with
  | zero => intro n h; omega
  | succ fuel ih =>
    intro n hn
    have hd := digitChar_value (n % 10) (Nat.mod_lt _ (by decide))
    simp only [Nat.toDigitsCore]
    by_cases h0 : n / 10 = 0
    · have hlt : n < 10 := by omega
      have hmod : n % 10 = n := Nat.mod_eq_of_lt hlt
      rw [hmod] at hd
      simp only [h0, if_true]
      refine ⟨?_, ?_, ?_⟩
      · intro ch hch
        simp only [hmod, List.mem_singleton] at hch
        rw [hch, hd.1]; rfl
      · simp [hmod, scanDigits, hd.1]
      · exact ⟨_, [], by rw [hmod], by rw [hd.1]; rfl, hd.2⟩
    · simp only [h0, if_false]
      rw [toDigitsCore_append]
      obtain ⟨hall, hval, ch, tail, htl, hch, hnz⟩ := ih (n / 10) (by omega)
      refine ⟨?_, ?_, ?_⟩
      · intro c hc
        rcases List.mem_append.mp hc with h | h
        · exact hall c h
        · simp only [List.mem_singleton] at h
          rw [h, hd.1]; rfl
      · rw [scanDigits_snoc _ 0 _ (n % 10) [] hd.1 hall, hval]
        simp only [scanDigits]
        omega
      · exact ⟨ch, tail ++ [Nat.digitChar (n % 10)], by rw [htl]; rfl, hch, fun _ => hnz h0⟩

theorem scanDigits_append (cs : List Char) : ∀ (acc : Nat) (rest : List Char),
    (∀ ch ∈ cs, (digitValue ch).isSome) →
    (∀ ch tail, rest = ch :: tail → digitValue ch = none) →
    scanDigits (cs ++ rest) acc = ((scanDigits cs acc).1, rest) := by
  induction cs with
  | nil =>
    intro acc rest _ hrest
    cases rest with
    | nil => rfl
    | cons ch tail => simp [scanDigits, hrest ch tail rfl]
  | cons c cs ih =>
    intro acc rest hall hrest
    obtain ⟨v, hv⟩ := Option.isSome_iff_exists.mp (hall c (List.mem_cons_self _ _))
    simp only [List.cons_append, scanDigits, hv]
    exact ih _ rest (fun ch hch => hall ch (List.mem_cons_of_mem _ hch)) hrest

/-- Reading back the decimal text of a natural number. -/
theorem scanNat_repr (n : Nat) (rest : List Char)
    (hrest : ∀ ch tail, rest = ch :: tail → digitValue ch = none) :
    scanNat ((toString n).data ++ rest) = some (n, rest) := by
  have hdata : (toString n).data = Nat.toDigitsCore 10 (n + 1) n [] := rfl
  obtain ⟨hall, hval, ch, tail, htl, hch, hnz⟩ := toDigitsCore_spec (n + 1) n (Nat.lt_succ_self n)
  rw [hdata]
  by_cases h0 : n = 0
  · subst h0
    rfl
  · have hne : ch ≠ '0' := hnz h0
    obtain ⟨v, hv⟩ := Option.isSome_iff_exists.mp hch
    have hscan := scanDigits_append _ 0 rest hall hrest
    rw [hval] at hscan
    rw [htl] at hscan ⊢
    simp only [List.cons_append, scanNat, hne, if_false, hv]
    rw [← List.cons_append, hscan]

/-- Reading back the decimal text of an integer that is followed by a closing brace. -/
theorem scanInt_toString (n : Int) (rest : List Char) :
    scanInt ((toString n).data ++ '\x7d' :: rest) = some (n, '\x7d' :: rest) := by
  have hrest : ∀ ch tail, '\x7d' :: rest = ch :: tail → digitValue ch = none := by
    intro ch tail h
    cases h
    decide
  have hcont : continuesNumber ('\x7d' :: rest) = false := by simp [continuesNumber, digitValue]
  cases n with
  | ofNat m =>
    have hs : (toString (Int.ofNat m)).data = (toString m).data := rfl
    have hnat := scanNat_repr m _ hrest
    rw [hs]
    obtain ⟨hall, hval, ch, tail, htl, hch, hnz⟩ :=
      toDigitsCore_spec (m + 1) m (Nat.lt_succ_self m)
    have hdata : (toString m).data = ch :: tail := htl
    have hminus : ch ≠ '-' := by
      intro h
      rw [h] at hch
      exact absurd hch (by decide)
    rw [hdata] at hnat ⊢
    simp only [List.cons_append] at hnat ⊢
    simp [scanInt, hminus, hnat, hcont]
  | negSucc m =>
    have hs : (toString (Int.negSucc m)).data = '-' :: (toString (m + 1)).data := rfl
    have hnat := scanNat_repr (m + 1) _ hrest
    rw [hs]
    simp only [List.cons_append]
    simp [scanInt, hnat, hcont]
    rw [Int.negSucc_eq]
    ring

/-! ## Decoding -/

theorem decodeElems_str (ss : List String) :
    decodeElems (fun x => stringInto x "") (ss.map JSON.str) = .ok ss := by
  induction ss with
  | nil => rfl
  | cons s rest ih =>
    rw [List.map_cons, decodeElems, ih]
    rfl

/-- Storing an array into an empty slice decodes its elements from the zero value. -/
theorem decodeSlice_fresh {α : Type} (again : List JSON → List α → Except GoError (List α))
    (elem : JSON → Except GoError α) (goType : String) (items : List JSON) :
    decodeSlice again elem goType (.arr items) [] = decodeElems elem items := by
  cases items <;> rfl

theorem intInto_of_fits (size : IntSize) (n old : Int) (hmin : size.minInt ≤ n)
    (hmax : n ≤ size.maxInt) : intInto size (.int n) old = .ok n := by
  simp [intInto, hmin, hmax]

theorem one_fits (size : IntSize) : size.minInt ≤ 1 ∧ 1 ≤ size.maxInt := by
  cases size <;> decide

theorem decode_errorsEnvelope (env : Env M CF F) (ss : List String) :
    Decode (errorsResultInto env) (.value (errorsEnvelope ss)) { Errors := [] } =
      .ok { Errors := ss } := by
  have hk : keyMatches "errors" "errors" = true := by decide
  simp [Decode, errorsResultInto, errorsEnvelope, decodeStruct, decodeMembers, errorsResultField,
    hk, decodeSlice_fresh, decodeElems_str, Except.map]

theorem decodeRead_errors {τ : Type} (env : Env M CF F) (into : JSON → τ → Except GoError τ)
    (zero : τ) (code : Int) (ss : List String) (h : code ≠ 200) :
    decodeRead env into zero { StatusCode := code, Body := .value (errorsEnvelope ss) } =
      (zero, some (GoError.new ("\n".intercalate ss))) := by
  simp [decodeRead, h, decode_errorsEnvelope]

theorem decodeRead_malformed {τ : Type} (env : Env M CF F)
    (into : JSON → τ → Except GoError τ) (zero : τ) (code : Int) (text : String) :
    decodeRead env into zero { StatusCode := code, Body := .malformed text } =
      (zero, some (GoError.scan text)) := by
  by_cases h : code = 200 <;> simp [decodeRead, h, Decode]

/-! ## One page -/

theorem Users_of_answers (env : Env M CF F) (c : Client) (log : Log) (v : JSON)
    (r : usersResult M CF)
    (h : Answers env log (usersRequest env c) ⟨200, .value v⟩)
    (hv : usersResultInto env v { Users := [] } = .ok r) :
    Client.Users env c log = ((r.Users, none), log ++ [usersRequest env c]) := by
  simp [Client.Users, Get_of_answers env log _ _ h, decodeRead, Decode, hv, usersRequest]

theorem totalCount_of_answers (env : Env M CF F) (c : Client) (log : Log) (v : JSON)
    (n : Int)
    (h : Answers env log (usersRequest env c) ⟨200, .value v⟩)
    (hv : totalcountInto env v { TotalCount := 0 } = .ok { TotalCount := n }) :
    Client.totalCount env c log = ((n, none), log ++ [usersRequest env c]) := by
  simp [Client.totalCount, Get_of_answers env log _ _ h, decodeRead, Decode, hv, usersRequest]

theorem Users_log_of_ok (env : Env M CF F) (c : Client) (log : Log)
    (h : (Client.Users env c log).1.2 = none) :
    (Client.Users env c log).2 = log ++ [usersRequest env c] := by
  unfold Client.Users at h ⊢
  rcases hg : Client.Get env (usersURL env c) log with ⟨_ | res, log1⟩
  · simp [hg] at h
  · have hl := Get_log_of_ok env _ _ _ _ hg
    rcases hd : decodeRead env (usersResultInto env) { Users := [] } res with ⟨r, _ | e⟩
    · simp [hd, hl, usersRequest]
    · simp [hg, hd] at h

theorem totalCount_log_of_ok (env : Env M CF F) (c : Client) (log : Log)
    (h : (Client.totalCount env c log).1.2 = none) :
    (Client.totalCount env c log).2 = log ++ [usersRequest env c] := by
  unfold Client.totalCount at h ⊢
  rcases hg : Client.Get env (usersURL env c) log with ⟨_ | res, log1⟩
  · simp [hg] at h
  · have hl := Get_log_of_ok env _ _ _ _ hg
    rcases hd : decodeRead env (totalcountInto env) { TotalCount := 0 } res with ⟨r, _ | e⟩
    · simp [hd, hl, usersRequest]
    · simp [hg, hd] at h

/-! ## The loop of `AllUsers` -/

theorem allUsersLoop_done (env : Env M CF F) (count i : Int) (c : Client) (log : Log)
    (acc : List (User M CF)) (h : ¬ i < count) :
    allUsersLoop env count i c log acc = ((acc, none), c, log) := by
  rw [allUsersLoop]
  simp [h]

theorem allUsersLoop_step (env : Env M CF F) (count i : Int) (c : Client) (log log1 : Log)
    (acc us : List (User M CF)) (h : i < count)
    (hu : Client.Users env { c with Offset := i } log = ((us, none), log1)) :
    allUsersLoop env count i c log acc =
      allUsersLoop env count (i + 100) { c with Offset := i } log1 (acc ++ us) := by
  rw [allUsersLoop]
  simp [h, hu]

theorem allUsersLoop_fail (env : Env M CF F) (count i : Int) (c : Client) (log log1 : Log)
    (acc us : List (User M CF)) (e : GoError) (h : i < count)
    (hu : Client.Users env { c with Offset := i } log = ((us, some e), log1)) :
    allUsersLoop env count i c log acc = (([], some e), { c with Offset := i }, log1) := by
  rw [allUsersLoop]
  simp [h, hu]

theorem loopClient_offset (c : Client) (n : Nat) :
    { loopClient c n with Offset := 100 * (n : Int) } = pageClient c n := by
  cases n <;> simp [loopClient, pageClient]

theorem pageRequests_succ (env : Env M CF F) (c : Client) (n : Nat) :
    pageRequests env c (n + 1) =
      pageRequests env c n ++ [usersRequest env (pageClient c n)] := by
  simp [pageRequests, List.range_succ]

theorem afterPages_zero (env : Env M CF F) (c : Client) (log : Log) :
    afterPages env c log 0 = log ++ [usersRequest env c] := by
  simp [afterPages, pageRequests]

theorem afterPages_succ (env : Env M CF F) (c : Client) (log : Log) (n : Nat) :
    afterPages env c log (n + 1) =
      afterPages env c log n ++ [usersRequest env (pageClient c n)] := by
  simp [afterPages, pageRequests_succ]

/-- As long as the pages succeed, the loop runs from the first test to the test after page
`n - 1`, with the pages gathered in order. -/
theorem allUsersLoop_pages (env : Env M CF F) (c : Client) (log : Log) (count : Int)
    (us : Nat → List (User M CF)) (n : Nat)
    (hp : ∀ j, j < n → 100 * (j : Int) < count ∧
      Client.Users env (pageClient c j) (afterPages env c log j) =
        ((us j, none), afterPages env c log (j + 1))) :
    allUsersLoop env count 0 { c with Limit := 100 } (afterPages env c log 0) [] =
      allUsersLoop env count (100 * (n : Int)) (loopClient c n) (afterPages env c log n)
        ((List.range n).map us).flatten := by
  induction n with
  | zero => simp [loopClient]
  | succ n ih =>
    rw [ih (fun j hj => hp j (Nat.lt_succ_of_lt hj))]
    obtain ⟨hlt, hu⟩ := hp n (Nat.lt_succ_self n)
    rw [← loopClient_offset] at hu
    rw [allUsersLoop_step env count _ _ _ _ _ _ hlt hu, loopClient_offset]
    have e1 : 100 * (n : Int) + 100 = 100 * ((n + 1 : Nat) : Int) := by push_cast; ring
    have e2 : ((List.range n).map us).flatten ++ us n =
        ((List.range (n + 1)).map us).flatten := by
      simp [List.range_succ]
    rw [e1, e2]
    rfl

theorem pageCount_lt (count : Int) (j : Nat) (h : j < pageCount count) :
    100 * (j : Int) < count := by
  unfold pageCount at h
  omega

theorem pageCount_ge (count : Int) : ¬ 100 * (pageCount count : Int) < count := by
  unfold pageCount
  omega


theorem Users_log_cases (env : Env M CF F) (c : Client) (log : Log) :
    (Client.Users env c log).2 = log ∨ (Client.Users env c log).2 = log ++ [usersRequest env c] := by
  unfold Client.Users Client.Get Client.Do
  cases hn : env.NewRequest "GET" (usersURL env c) with
  | some err => simp
  | none =>
    right
    cases hd : env.Do log (getRequest (usersURL env c)) with
    | error err => simp [usersRequest]
    | ok res =>
      rcases hr : decodeRead env (usersResultInto env) { Users := [] } res with ⟨r, _ | e⟩ <;>
        simp [hr, usersRequest]

theorem totalCount_log_cases (env : Env M CF F) (c : Client) (log : Log) :
    (Client.totalCount env c log).2 = log ∨
      (Client.totalCount env c log).2 = log ++ [usersRequest env c] := by
  unfold Client.totalCount Client.Get Client.Do
  cases hn : env.NewRequest "GET" (usersURL env c) with
  | some err => simp
  | none =>
    right
    cases hd : env.Do log (getRequest (usersURL env c)) with
    | error err => simp [usersRequest]
    | ok res =>
      rcases hr : decodeRead env (totalcountInto env) { TotalCount := 0 } res with ⟨r, _ | e⟩ <;>
        simp [hr, usersRequest]

theorem totalCount_eq_of_ok (env : Env M CF F) (c : Client) (log : Log) (count : Int)
    (h : (Client.totalCount env c log).1 = (count, none)) :
    Client.totalCount env c log = ((count, none), afterPages env c log 0) := by
  have h2 : (Client.totalCount env c log).1.2 = none := by rw [h]
  have hl := totalCount_log_of_ok env c log h2
  rw [afterPages_zero, ← hl, ← h]

theorem Users_eq_of_ok (env : Env M CF F) (c : Client) (log : Log)
    (h : (Client.Users env c log).1.2 = none) :
    Client.Users env c log =
      (((Client.Users env c log).1.1, none), log ++ [usersRequest env c]) := by
  have hl := Users_log_of_ok env c log h
  rw [← hl, ← h]

/-! ## Runs of `AllUsers` -/

/-- The run of `AllUsers` when the count and the pages below it succeed. -/
theorem AllUsers_of_pages (env : Env M CF F) (c : Client) (log : Log) (count : Int)
    (us : Nat → List (User M CF))
    (h0 : Client.totalCount env c log = ((count, none), afterPages env c log 0))
    (hp : ∀ j, j < pageCount count →
      Client.Users env (pageClient c j) (afterPages env c log j) =
        ((us j, none), afterPages env c log (j + 1))) :
    Client.AllUsers env c log =
      ((((List.range (pageCount count)).map us).flatten, none), pageClient c 0,
        afterPages env c log (pageCount count)) := by
  have hl := allUsersLoop_pages env c log count us (pageCount count)
    (fun j hj => ⟨pageCount_lt count j hj, hp j hj⟩)
  rw [allUsersLoop_done env count _ _ _ _ (pageCount_ge count)] at hl
  unfold Client.AllUsers
  rw [h0]
  simp only [hl]
  cases pageCount count <;> simp [loopClient, pageClient]

/-- The run of `AllUsers` when page `k` is the first to fail. -/
theorem AllUsers_of_failing_page (env : Env M CF F) (c : Client) (log logk : Log) (count : Int)
    (us : Nat → List (User M CF)) (k : Nat) (e : GoError) (got : List (User M CF))
    (h0 : Client.totalCount env c log = ((count, none), afterPages env c log 0))
    (hk : 100 * (k : Int) < count)
    (hp : ∀ j, j < k →
      Client.Users env (pageClient c j) (afterPages env c log j) =
        ((us j, none), afterPages env c log (j + 1)))
    (hf : Client.Users env (pageClient c k) (afterPages env c log k) =
        ((got, some e), logk)) :
    Client.AllUsers env c log = (([], some e), pageClient c k, logk) := by
  have hl := allUsersLoop_pages env c log count us k
    (fun j hj => ⟨by have := Int.ofNat_lt.mpr hj; omega, hp j hj⟩)
  rw [← loopClient_offset] at hf
  rw [allUsersLoop_fail env count _ _ _ _ _ _ e hk hf, loopClient_offset] at hl
  unfold Client.AllUsers
  rw [h0]
  simp only [hl]

/-- The run of `AllUsers` when the total-count request fails. -/
theorem AllUsers_of_failing_count (env : Env M CF F) (c : Client) (log : Log) (e : GoError)
    (h0 : (Client.totalCount env c log).1.2 = some e) :
    Client.AllUsers env c log = (([], some e), c, (Client.totalCount env c log).2) := by
  unfold Client.AllUsers
  rcases ht : Client.totalCount env c log with ⟨⟨n, _ | e1⟩, log1⟩
  · simp [ht] at h0
  · simp [ht] at h0
    simp [h0]

theorem flatten_pages {α : Type} (L : List α) (m : Nat) :
    ((List.range m).map (fun k => (L.drop (100 * k)).take 100)).flatten = L.take (100 * m) := by
  induction m with
  | zero => simp
  | succ m ih =>
    rw [List.range_succ, List.map_append, List.flatten_append, ih]
    simp only [List.map_cons, List.map_nil, List.flatten_cons, List.flatten_nil, List.append_nil]
    rw [Nat.mul_succ, List.take_add]

theorem flatten_pages_all {α : Type} (L : List α) :
    ((List.range (pageCount L.length)).map (fun k => (L.drop (100 * k)).take 100)).flatten = L := by
  rw [flatten_pages]
  apply List.take_of_length_le
  have := pageCount_ge (L.length : Int)
  omega


theorem pageCount_eq_ceil (N : Int) (h : 0 ≤ N) : (pageCount N : Int) = ⌈(N : ℚ) / 100⌉ := by
  symm
  rw [Int.ceil_eq_iff]
  have h1 : 100 * ((pageCount N : Int) - 1) < N := by unfold pageCount; omega
  have h2 : N ≤ 100 * (pageCount N : Int) := by unfold pageCount; omega
  have h1q : (100 : ℚ) * (((pageCount N : Int) : ℚ) - 1) < (N : ℚ) := by exact_mod_cast h1
  have h2q : (N : ℚ) ≤ 100 * ((pageCount N : Int) : ℚ) := by exact_mod_cast h2
  constructor
  · rw [lt_div_iff₀ (by norm_num)]; linarith
  · rw [div_le_iff₀ (by norm_num)]; linarith

theorem pageCount_nonpos (N : Int) (h : N ≤ 0) : pageCount N = 0 := by
  unfold pageCount
  omega

/-! ## The one-user scenario -/

theorem pageCount_one : pageCount 1 = 1 := by decide

theorem map_eq_ok {α β : Type} (f : α → β) (x : Except GoError α) (y : β)
    (h : x.map f = .ok y) : ∃ a, x = .ok a ∧ f a = y := by
  cases x with
  | error e => simp [Except.map] at h
  | ok a => exact ⟨a, rfl, by simpa [Except.map] using h⟩

theorem map_keeps_Id {α : Type} (x : Except GoError α) (f : α → User M CF) (u u1 : User M CF)
    (h : x.map f = .ok u1) (hf : ∀ a, (f a).Id = u.Id) : u1.Id = u.Id := by
  obtain ⟨a, _, rfl⟩ := map_eq_ok f x u1 h
  exact hf a

/-- A member whose key is not `id` leaves the field `Id` of a `User` as it is. -/
theorem userField_Id (env : Env M CF F) (key : String) (v : JSON) (u u1 : User M CF)
    (hk : keyMatches "id" key = false) (h : userField env key v u = .ok u1) : u1.Id = u.Id := by
  unfold userField at h
  rw [if_neg (by simp [hk])] at h
  split_ifs at h
  · exact map_keeps_Id _ _ u u1 h (fun _ => rfl)
  · exact map_keeps_Id _ _ u u1 h (fun _ => rfl)
  · exact map_keeps_Id _ _ u u1 h (fun _ => rfl)
  · exact map_keeps_Id _ _ u u1 h (fun _ => rfl)
  · exact map_keeps_Id _ _ u u1 h (fun _ => rfl)
  · exact map_keeps_Id _ _ u u1 h (fun _ => rfl)
  · exact map_keeps_Id _ _ u u1 h (fun _ => rfl)
  · exact map_keeps_Id _ _ u u1 h (fun _ => rfl)
  · cases h
    rfl

theorem decodeMembers_Id (env : Env M CF F) (rest : List (String × JSON)) :
    ∀ (u u1 : User M CF), (∀ kv ∈ rest, keyMatches "id" kv.1 = false) →
      decodeMembers (userField env) rest u = .ok u1 → u1.Id = u.Id := by
  induction rest with
  | nil =>
    intro u u1 _ h
    simp [decodeMembers] at h
    rw [h]
  | cons kv rest ih =>
    intro u u1 hk h
    obtain ⟨k, v⟩ := kv
    rw [decodeMembers] at h
    cases hf : userField env k v u with
    | error e => simp [hf] at h
    | ok u2 =>
      simp only [hf] at h
      rw [ih u2 u1 (fun kv hkv => hk kv (List.mem_cons_of_mem _ hkv)) h]
      exact userField_Id env k v u u2 (hk (k, v) (List.mem_cons_self _ _)) hf

theorem userInto_id_one (env : Env M CF F) (rest : List (String × JSON)) (u : User M CF)
    (hk : ∀ kv ∈ rest, keyMatches "id" kv.1 = false)
    (h : userInto env (.obj (("id", .int 1) :: rest)) User.zero = .ok u) : u.Id = 1 := by
  have hid : keyMatches "id" "id" = true := by decide
  simp only [userInto, decodeStruct, decodeMembers, userField, hid, if_true,
    intInto_of_fits _ 1 _ (one_fits _).1 (one_fits _).2, Except.map] at h
  rw [decodeMembers_Id env rest _ u hk h]

theorem decode_listEnvelope_users (env : Env M CF F) (uobj : JSON) (n : Int) (u : User M CF)
    (hu : userInto env uobj User.zero = .ok u) :
    usersResultInto env (listEnvelope [uobj] n) { Users := [] } = .ok { Users := [u] } := by
  have h1 : keyMatches "users" "users" = true := by decide
  have h2 : keyMatches "users" "total_count" = false := by decide
  simp [usersResultInto, listEnvelope, decodeStruct, decodeMembers, usersResultField, h1, h2,
    decodeSlice_fresh, decodeElems, hu, Except.map]

theorem decode_listEnvelope_total (env : Env M CF F) (users : List JSON) (n : Int)
    (hmin : env.intSize.minInt ≤ n) (hmax : n ≤ env.intSize.maxInt) :
    totalcountInto env (listEnvelope users n) { TotalCount := 0 } = .ok { TotalCount := n } := by
  have h1 : keyMatches "total_count" "users" = false := by decide
  have h2 : keyMatches "total_count" "total_count" = true := by decide
  simp [totalcountInto, listEnvelope, decodeStruct, decodeMembers, totalcountField, h1, h2,
    intInto_of_fits _ n _ hmin hmax, Except.map]

/-- The run of `AllUsers` against a server that always sends the same one-user page. -/
theorem AllUsers_same_page (env : Env M CF F) (c : Client) (log : Log) (uobj : JSON)
    (u : User M CF)
    (hu : userInto env uobj User.zero = .ok u)
    (hans : ∀ (d : Client) (log1 : Log),
      Answers env log1 (usersRequest env d) ⟨200, .value (listEnvelope [uobj] 1)⟩) :
    Client.AllUsers env c log =
      (([u], none), { c with Limit := 100, Offset := 0 },
        log ++ [usersRequest env c, usersRequest env (pageClient c 0)]) := by
  have h0 := totalCount_of_answers env c log _ 1 (hans c log)
    (decode_listEnvelope_total env _ 1 (one_fits _).1 (one_fits _).2)
  rw [← afterPages_zero] at h0
  have hrun := AllUsers_of_pages env c log 1 (fun _ => [u]) h0 (by
    intro j _
    rw [Users_of_answers env _ _ _ _ (hans _ _) (decode_listEnvelope_users env uobj 1 u hu),
      afterPages_succ])
  rw [hrun, pageCount_one]
  simp [afterPages, pageRequests, pageClient, List.range_succ]

/-! ## `fmt.Sprintf` on the format of `SetUserStatus` -/

theorem sprintfCore_cons (ch : Char) (l : List Char) (args : List Int) (h : ch ≠ '%') :
    sprintfCore (ch :: l) args = (sprintfCore l args).map (fun out => ch :: out) := by
  cases l with
  | nil => cases args <;> simp [sprintfCore, h]
  | cons verb rest => simp [sprintfCore, h]

theorem sprintfCore_plain (l : List Char) (h : '%' ∉ l) : sprintfCore l [] = some l := by
  induction l with
  | nil => simp [sprintfCore]
  | cons ch rest ih =>
    have hch : ch ≠ '%' := fun e => h (by simp [e])
    have hrest : '%' ∉ rest := fun e => h (List.mem_cons_of_mem _ e)
    rw [sprintfCore_cons ch rest [] hch, ih hrest]
    rfl

theorem sprintfCore_d (suf : List Char) (a : Int) (h : '%' ∉ suf) :
    sprintfCore ('%' :: 'd' :: suf) [a] = some ((toString a).data ++ suf) := by
  have hd : isDirectiveChar 'd' = false := by decide
  simp [sprintfCore, hd, sprintfCore_plain suf h]

theorem sprintfCore_one_d (pre suf : List Char) (a : Int) (hp : '%' ∉ pre) (hs : '%' ∉ suf) :
    sprintfCore (pre ++ '%' :: 'd' :: suf) [a] = some (pre ++ (toString a).data ++ suf) := by
  induction pre with
  | nil => simpa using sprintfCore_d suf a hs
  | cons ch rest ih =>
    have hch : ch ≠ '%' := fun e => hp (by simp [e])
    have hrest : '%' ∉ rest := fun e => hp (List.mem_cons_of_mem _ e)
    rw [List.cons_append, sprintfCore_cons ch _ [a] hch, ih hrest]
    rfl

/-- Without a `%` in the endpoint and in the API key, `SetUserStatus` puts to the URL that
`User` gets. -/
theorem setUserStatusURL_eq_userURL (env : Env M CF F) (c : Client) (userID : Int)
    (he : '%' ∉ c.endpoint.data) (hk : '%' ∉ c.apikey.data) :
    setUserStatusURL env c userID = userURL c userID := by
  have hfmt : (c.endpoint ++ "/users/%d.json?key=" ++ c.apikey).data =
      (c.endpoint.data ++ "/users/".data) ++ '%' :: 'd' :: (".json?key=".data ++ c.apikey.data) := by
    simp [String.data_append]
  have hpre : '%' ∉ c.endpoint.data ++ "/users/".data := by
    simp [he]
  have hsuf : '%' ∉ ".json?key=".data ++ c.apikey.data := by
    simp [hk]
  unfold setUserStatusURL Sprintf userURL
  rw [hfmt, sprintfCore_one_d _ _ userID hpre hsuf]
  apply String.ext
  simp [String.data_append]

/-! ## Reading back the payload of `SetUserStatus` -/

/-- The decimal text of an integer starts with a digit or with the sign. -/
theorem toString_int_head (n : Int) :
    ∃ ch tail, (toString n).data = ch :: tail ∧ (ch = '-' ∨ (digitValue ch).isSome) := by
  cases n with
  | ofNat m =>
    obtain ⟨_, _, ch, tail, htl, hch, _⟩ := toDigitsCore_spec (m + 1) m (Nat.lt_succ_self m)
    exact ⟨ch, tail, htl, Or.inr hch⟩
  | negSucc m => exact ⟨'-', (toString (m + 1)).data, rfl, Or.inl rfl⟩

theorem scanValue_int (n : Int) (fuel depth : Nat) (rest : List Char) :
    scanValue (fuel + 1) depth ((toString n).data ++ '\x7d' :: rest) =
      some (.int n, '\x7d' :: rest) := by
  have hint := scanInt_toString n rest
  obtain ⟨ch, tail, htl, hch⟩ := toString_int_head n
  rw [htl] at hint ⊢
  have h1 : ch ≠ '\x7b' := by rintro rfl; revert hch; decide
  have h2 : ch ≠ '[' := by rintro rfl; revert hch; decide
  have h3 : ch ≠ '"' := by rintro rfl; revert hch; decide
  have h4 : ch ≠ 't' := by rintro rfl; revert hch; decide
  have h5 : ch ≠ 'f' := by rintro rfl; revert hch; decide
  have h6 : ch ≠ 'n' := by rintro rfl; revert hch; decide
  rw [List.cons_append] at hint ⊢
  rw [scanValue, if_neg h1, if_neg h2, if_neg h3, if_neg h4, if_neg h5, if_neg h6, hint]

theorem skipSpace_int (n : Int) (rest : List Char) :
    skipSpace ((toString n).data ++ rest) = (toString n).data ++ rest := by
  obtain ⟨ch, tail, htl, hch⟩ := toString_int_head n
  have hsp : isSpace ch = false := by
    have h1 : ch ≠ ' ' := by rintro rfl; revert hch; decide
    have h2 : ch ≠ '\t' := by rintro rfl; revert hch; decide
    have h3 : ch ≠ '\n' := by rintro rfl; revert hch; decide
    have h4 : ch ≠ '\r' := by rintro rfl; revert hch; decide
    simp [isSpace, h1, h2, h3, h4]
  rw [htl, List.cons_append, skipSpace]
  simp [hsp]

theorem scanMembers_status (n : Int) (fuel depth : Nat) (rest : List Char) :
    scanMembers (fuel + 2) depth
      ("status\":".data ++ ((toString n).data ++ '\x7d' :: rest)) =
      some ([("status", .int n)], rest) := by
  have hkey : scanString ("status\":".data ++ ((toString n).data ++ '\x7d' :: rest)) =
      some ("status".data, ':' :: ((toString n).data ++ '\x7d' :: rest)) := by
    simp [scanString]
  rw [scanMembers, hkey]
  simp only [skipSpace, isSpace]
  simp only [Char.reduceEq, Bool.or_self, decide_False, Bool.false_eq_true, if_false, if_true]
  rw [skipSpace_int, scanValue_int]
  simp [skipSpace, isSpace]

theorem scanValue_status_object (n : Int) (fuel depth : Nat) (hdepth : depth < 10000)
    (rest : List Char) :
    scanValue (fuel + 3) depth
      ("\x7b\"status\":".data ++ ((toString n).data ++ '\x7d' :: rest)) =
      some (.obj [("status", .int n)], rest) := by
  have h := scanMembers_status n fuel (depth + 1) rest
  have htext : "\x7b\"status\":".data ++ ((toString n).data ++ '\x7d' :: rest) =
      '\x7b' :: '"' :: ("status\":".data ++ ((toString n).data ++ '\x7d' :: rest)) := rfl
  rw [htext, scanValue]
  simp only [if_true, hdepth, skipSpace, isSpace]
  simp only [Char.reduceEq, Bool.or_self, decide_False, Bool.false_eq_true, if_false, if_true]
  rw [h]

theorem scanMembers_user (n : Int) (fuel : Nat) (rest : List Char) :
    scanMembers (fuel + 4) 1
      ("user\":\x7b\"status\":".data ++ ((toString n).data ++ '\x7d' :: '\x7d' :: rest)) =
      some ([("user", .obj [("status", .int n)])], rest) := by
  have hkey : scanString
      ("user\":\x7b\"status\":".data ++ ((toString n).data ++ '\x7d' :: '\x7d' :: rest)) =
      some ("user".data, ':' :: ("\x7b\"status\":".data ++
        ((toString n).data ++ '\x7d' :: '\x7d' :: rest))) := by
    simp [scanString]
  have h := scanValue_status_object n fuel 1 (by decide) ('\x7d' :: rest)
  have hsp : skipSpace ("\x7b\"status\":".data ++ ((toString n).data ++ '\x7d' :: '\x7d' :: rest))
      = "\x7b\"status\":".data ++ ((toString n).data ++ '\x7d' :: '\x7d' :: rest) := by
    simp [skipSpace, isSpace]
  rw [scanMembers, hkey]
  simp only [skipSpace, isSpace]
  simp only [Char.reduceEq, Bool.or_self, decide_False, Bool.false_eq_true, if_false, if_true]
  rw [hsp, h]
  simp [skipSpace, isSpace]

/-- Reading back the text that `json.Marshal` writes for a `Status`. -/
theorem scanValue_statusText (n : Int) (fuel : Nat) (rest : List Char) :
    scanValue (fuel + 5) 0
      ("\x7b\"user\":\x7b\"status\":".data ++ ((toString n).data ++ '\x7d' :: '\x7d' :: rest)) =
      some (.obj [("user", .obj [("status", .int n)])], rest) := by
  have h := scanMembers_user n fuel rest
  have htext : "\x7b\"user\":\x7b\"status\":".data ++
      ((toString n).data ++ '\x7d' :: '\x7d' :: rest) =
      '\x7b' :: '"' :: ("user\":\x7b\"status\":".data ++
        ((toString n).data ++ '\x7d' :: '\x7d' :: rest)) := rfl
  rw [htext, scanValue]
  simp only [if_true, skipSpace, isSpace]
  simp only [Char.reduceEq, Bool.or_self, decide_False, Bool.false_eq_true, if_false, if_true]
  simp only [show (0 : Nat) < 10000 by decide, if_true]
  rw [h]

theorem scanText_statusText (n : Int) :
    scanText (statusText ⟨⟨n⟩⟩) = some (.obj [("user", .obj [("status", .int n)])]) := by
  have hdata : (statusText ⟨⟨n⟩⟩).data =
      "\x7b\"user\":\x7b\"status\":".data ++ ((toString n).data ++ '\x7d' :: '\x7d' :: []) := by
    simp [statusText, String.data_append]
  have hsp : skipSpace (statusText ⟨⟨n⟩⟩).data = (statusText ⟨⟨n⟩⟩).data := by
    rw [hdata]
    simp [skipSpace, isSpace]
  have hlen : ∃ fuel, (statusText ⟨⟨n⟩⟩).data.length + 1 = fuel + 5 := by
    refine ⟨(statusText ⟨⟨n⟩⟩).data.length - 4, ?_⟩
    rw [hdata]
    simp
  obtain ⟨fuel, hfuel⟩ := hlen
  unfold scanText
  simp only [hsp, hfuel]
  rw [hdata, scanValue_statusText]

/-! ## The scenarios -/

theorem scenario_helper (answer : Log → Request → Except GoError Response) :
    HelperSpec (scenarioEnv answer) := by
  intro code accepted
  simp [scenarioEnv]

end Facts

/-! # The claims -/

section Claims

variable {M CF F : Type}

/-- C1: against a server that answers the total-count request with status 200 and total
count `L.length`, and the request of every page `k` with `100 * k < L.length` (sent with
`Limit` 100 and `Offset` `100 * k`) with status 200 and the users
`L[100 * k : min (100 * k + 100) L.length]`, `AllUsers` returns `L` without error, and `L`
is the concatenation in increasing offset order of the pages that `Users` fetches at the
offsets 0, 100, 200, ... below `L.length`. -/
theorem AllUsers_returns_list (env : Env M CF F) (c : Client) (log : Log)
    (L : List (User M CF)) (body0 : JSON) (page : Nat → JSON)
    (hcount : Answers env log (usersRequest env c) ⟨200, .value body0⟩)
    (htotal : totalcountInto env body0 { TotalCount := 0 } = .ok { TotalCount := L.length })
    (hpage : ∀ k : Nat, 100 * k < L.length →
      Answers env (afterPages env c log k) (usersRequest env (pageClient c k))
        ⟨200, .value (page k)⟩ ∧
      usersResultInto env (page k) { Users := [] } =
        .ok { Users := (L.drop (100 * k)).take 100 }) :
    (Client.AllUsers env c log).1 = (L, none) ∧
    L = ((List.range (pageCount L.length)).map (fun k =>
          (Client.Users env (pageClient c k) (afterPages env c log k)).1.1)).flatten := by
  have h0 := totalCount_of_answers env c log body0 L.length hcount htotal
  rw [← afterPages_zero] at h0
  have hu : ∀ j, j < pageCount (L.length : Int) →
      Client.Users env (pageClient c j) (afterPages env c log j) =
        (((L.drop (100 * j)).take 100, none), afterPages env c log (j + 1)) := by
    intro j hj
    have hlt : 100 * j < L.length := by have := pageCount_lt _ j hj; omega
    obtain ⟨ha, hv⟩ := hpage j hlt
    rw [Users_of_answers env _ _ _ _ ha hv, afterPages_succ]
  have hrun := AllUsers_of_pages env c log L.length _ h0 hu
  rw [flatten_pages_all] at hrun
  refine ⟨by rw [hrun], ?_⟩
  conv_lhs => rw [← flatten_pages_all L]
  congr 1
  apply List.map_congr_left
  intro j hj
  rw [hu j (List.mem_range.mp hj)]

/-- C1, at the server that holds the users with the ids 0, ..., 100: the hypotheses hold,
and `AllUsers` returns the 101 users in order, gathered from two pages. -/
theorem AllUsers_returns_list_witness :
    Answers envTwoPages [] (usersRequest envTwoPages scenarioClient)
      ⟨200, .value (listEnvelope ((List.range 100).map userJSON) 101)⟩ ∧
    totalcountInto envTwoPages (listEnvelope ((List.range 100).map userJSON) 101)
        { TotalCount := 0 } =
      .ok { TotalCount := ((List.range 101).map userOf).length } ∧
    (Client.AllUsers envTwoPages scenarioClient []).1 = ((List.range 101).map userOf, none) :=
  ⟨⟨rfl, rfl⟩, rfl,
    (AllUsers_returns_list envTwoPages scenarioClient [] ((List.range 101).map userOf)
      (listEnvelope ((List.range 100).map userJSON) 101)
      (fun k => if k = 0 then listEnvelope ((List.range 100).map userJSON) 101
        else listEnvelope [userJSON 100] 101) ⟨rfl, rfl⟩ rfl
      (fun k hk => by
        have hk01 : k = 0 ∨ k = 1 := by simp at hk; omega
        rcases hk01 with rfl | rfl
        · exact ⟨⟨rfl, rfl⟩, rfl⟩
        · exact ⟨⟨rfl, rfl⟩, rfl⟩)).1⟩

/-- C2, as the code has it: when `AllUsers` returns without error the client's `Offset` is 0,
and when the total-count request fails the client is left exactly as it was. -/
theorem AllUsers_resets_offset_on_success (env : Env M CF F) (c : Client) (log : Log) :
    ((Client.AllUsers env c log).1.2 = none → (Client.AllUsers env c log).2.1.Offset = 0) ∧
    ((Client.totalCount env c log).1.2 ≠ none → (Client.AllUsers env c log).2.1 = c) := by
  constructor
  · unfold Client.AllUsers
    rcases Client.totalCount env c log with ⟨⟨count, _ | e⟩, log1⟩
    · rcases hl : allUsersLoop env count 0 { c with Limit := 100 } log1 [] with
        ⟨⟨us, _ | e⟩, c1, log2⟩
      · simp [hl]
      · simp [hl]
    · simp
  · intro h
    rcases he : (Client.totalCount env c log).1.2 with _ | e
    · exact absurd he h
    · rw [AllUsers_of_failing_count env c log e he]

/-- C2, at the one-user scenario (success, `Offset` 0) and at the unreachable server (the
client keeps its `Offset` 5). -/
theorem AllUsers_resets_offset_on_success_witness :
    (Client.AllUsers envOneUser scenarioClient []).2.1.Offset = 0 ∧
    (Client.AllUsers envDown scenarioClient []).2.1 = scenarioClient :=
  ⟨(AllUsers_resets_offset_on_success envOneUser scenarioClient []).1
      (by rw [AllUsers_same_page envOneUser scenarioClient [] userOneJSON userOne rfl
        (fun _ _ => ⟨rfl, rfl⟩)]),
    (AllUsers_resets_offset_on_success envDown scenarioClient []).2 (by decide)⟩

/-- C2 fails as stated: with the server unreachable `AllUsers` fails and the client's
`Offset` is still 5; with the second page failing `AllUsers` fails and the client's `Offset`
is 100. -/
theorem AllUsers_offset_not_reset_on_failure :
    ((Client.AllUsers envDown scenarioClient []).1.2 =
        some (GoError.transport "connection refused") ∧
      (Client.AllUsers envDown scenarioClient []).2.1.Offset = 5 ∧
      (Client.AllUsers envDown scenarioClient []).2.1.Offset ≠ 0) ∧
    ((Client.AllUsers envSecondPageFails scenarioClient []).1.2 =
        some (GoError.transport "connection reset") ∧
      (Client.AllUsers envSecondPageFails scenarioClient []).2.1.Offset = 100 ∧
      (Client.AllUsers envSecondPageFails scenarioClient []).2.1.Offset ≠ 0) := by
  constructor
  · rw [AllUsers_of_failing_count envDown scenarioClient []
      (GoError.transport "connection refused") rfl]
    exact ⟨rfl, rfl, by decide⟩
  · rw [AllUsers_of_failing_page envSecondPageFails scenarioClient []
      (afterPages envSecondPageFails scenarioClient [] 2) 150 (fun _ => [userOne]) 1
      (GoError.transport "connection reset") [] rfl (by decide)
      (fun j hj => by
        have hj0 : j = 0 := by omega
        subst hj0
        rfl)
      rfl]
    exact ⟨rfl, rfl, by decide⟩

/-- C3: `AllUsers` fails fast.  If the total-count request fails with `e`, `AllUsers` returns
no users and `e`, having issued at most that one request.  If the count is `count` and page
`k` (offset `100 * k < count`) is the first page to fail, with `e`, `AllUsers` returns no
users and `e`, and the last request it has issued is at most that of page `k`: none for a
later offset. -/
theorem AllUsers_fails_fast (env : Env M CF F) (c : Client) (log : Log) (e : GoError) :
    ((Client.totalCount env c log).1.2 = some e →
      (Client.AllUsers env c log).1 = ([], some e) ∧
      ((Client.AllUsers env c log).2.2 = log ∨
        (Client.AllUsers env c log).2.2 = log ++ [usersRequest env c])) ∧
    (∀ (count : Int) (k : Nat),
      (Client.totalCount env c log).1 = (count, none) →
      100 * (k : Int) < count →
      (∀ j, j < k → (Client.Users env (pageClient c j) (afterPages env c log j)).1.2 = none) →
      (Client.Users env (pageClient c k) (afterPages env c log k)).1.2 = some e →
      (Client.AllUsers env c log).1 = ([], some e) ∧
      ((Client.AllUsers env c log).2.2 = afterPages env c log k ∨
        (Client.AllUsers env c log).2.2 = afterPages env c log (k + 1))) := by
  constructor
  · intro h
    rw [AllUsers_of_failing_count env c log e h]
    exact ⟨rfl, totalCount_log_cases env c log⟩
  · intro count k h0 hk hp hf
    have hrun := AllUsers_of_failing_page env c log
      (Client.Users env (pageClient c k) (afterPages env c log k)).2 count
      (fun j => (Client.Users env (pageClient c j) (afterPages env c log j)).1.1) k e
      (Client.Users env (pageClient c k) (afterPages env c log k)).1.1
      (totalCount_eq_of_ok env c log count h0) hk
      (fun j hj => by rw [afterPages_succ]; exact Users_eq_of_ok env _ _ (hp j hj))
      (by rw [← hf])
    rw [hrun, afterPages_succ]
    exact ⟨rfl, Users_log_cases env _ _⟩

/-- C3, at the unreachable server (the total-count request fails) and at the server whose
second page fails (the count, 150, and page 0 succeed, page 1 fails): `AllUsers` returns no
users and the error of the failing request, and has issued one request in the first case
and three in the second. -/
theorem AllUsers_fails_fast_witness :
    ((Client.totalCount envDown scenarioClient []).1.2 =
        some (GoError.transport "connection refused") ∧
      (Client.AllUsers envDown scenarioClient []).1 =
        ([], some (GoError.transport "connection refused"))) ∧
    ((Client.totalCount envSecondPageFails scenarioClient []).1 = (150, none) ∧
      (Client.Users envSecondPageFails (pageClient scenarioClient 1)
        (afterPages envSecondPageFails scenarioClient [] 1)).1.2 =
          some (GoError.transport "connection reset") ∧
      (Client.AllUsers envSecondPageFails scenarioClient []).1 =
        ([], some (GoError.transport "connection reset")) ∧
      ((Client.AllUsers envSecondPageFails scenarioClient []).2.2 =
          afterPages envSecondPageFails scenarioClient [] 1 ∨
        (Client.AllUsers envSecondPageFails scenarioClient []).2.2 =
          afterPages envSecondPageFails scenarioClient [] 2)) :=
  ⟨⟨rfl,
      ((AllUsers_fails_fast envDown scenarioClient []
        (GoError.transport "connection refused")).1 rfl).1⟩,
    rfl, rfl,
    (AllUsers_fails_fast envSecondPageFails scenarioClient []
      (GoError.transport "connection reset")).2 150 1 rfl (by decide)
      (fun j hj => by
        have hj0 : j = 0 := by omega
        subst hj0
        rfl)
      rfl⟩

/-- C4: when the response has a status other than 200 (for `Users`, `UsersWithFilter`, `User`
and `UserByIdAndFilter`), or other than 204 and 201 (for `SetUserStatus`, with the helper
`isHTTPStatusSuccessful` testing membership), and its body is the error envelope of the
messages `ss`, the call returns no result and the error `errors.New` of the messages joined
with a newline, in their order. -/
theorem error_envelope_is_reported (env : Env M CF F) (c : Client) (log : Log) (code : Int)
    (ss : List String) :
    (code ≠ 200 →
      Answers env log (usersRequest env c) ⟨code, .value (errorsEnvelope ss)⟩ →
      Client.Users env c log =
        (([], some (GoError.new ("\n".intercalate ss))), log ++ [usersRequest env c])) ∧
    (code ≠ 200 → ∀ (filter : F) (uri : String),
      env.URLWithFilter c "/users.json" filter = .ok uri →
      Answers env log (filteredRequest c uri) ⟨code, .value (errorsEnvelope ss)⟩ →
      Client.UsersWithFilter env c filter log =
        (([], some (GoError.new ("\n".intercalate ss))), log ++ [filteredRequest c uri])) ∧
    (code ≠ 200 → ∀ id : Int,
      Answers env log (getRequest (userURL c id)) ⟨code, .value (errorsEnvelope ss)⟩ →
      Client.User env c id log =
        ((none, some (GoError.new ("\n".intercalate ss))),
          log ++ [getRequest (userURL c id)])) ∧
    (code ≠ 200 → ∀ (id : Int) (filter : F) (uri : String),
      env.URLWithFilter c ("/users/" ++ toString id ++ ".json") filter = .ok uri →
      Answers env log (filteredRequest c uri) ⟨code, .value (errorsEnvelope ss)⟩ →
      Client.UserByIdAndFilter env c id filter log =
        ((none, some (GoError.new ("\n".intercalate ss))), log ++ [filteredRequest c uri])) ∧
    (HelperSpec env → code ≠ 204 → code ≠ 201 → ∀ (status : Status) (userID : Int),
      Answers env log (putRequest (setUserStatusURL env c userID) (statusText status))
        ⟨code, .value (errorsEnvelope ss)⟩ →
      Client.SetUserStatus env c status userID log =
        (some (GoError.new ("\n".intercalate ss)),
          log ++ [putRequest (setUserStatusURL env c userID) (statusText status)])) := by
  refine ⟨?_, ?_, ?_, ?_, ?_⟩
  · intro hc h
    simp [Client.Users, Get_of_answers env log _ _ h, decodeRead_errors env _ _ code ss hc,
      usersRequest]
  · intro hc filter uri hu h
    have h1 : env.NewRequest "GET" uri = none := h.1
    simp [Client.UsersWithFilter, hu, h1, Do_of_answers env log _ _ h,
      decodeRead_errors env _ _ code ss hc]
  · intro hc id h
    simp [Client.User, Get_of_answers env log _ _ h, decodeRead_errors env _ _ code ss hc]
  · intro hc id filter uri hu h
    have h1 : env.NewRequest "GET" uri = none := h.1
    simp [Client.UserByIdAndFilter, hu, h1, Do_of_answers env log _ _ h,
      decodeRead_errors env _ _ code ss hc]
  · intro hh h204 h201 status userID h
    have h1 : env.NewRequest "PUT" (setUserStatusURL env c userID) = none := h.1
    have h2 : env.isHTTPStatusSuccessful code [201] = false := by
      cases hb : env.isHTTPStatusSuccessful code [201] with
      | false => rfl
      | true => exact absurd ((hh code [201]).mp hb) (by simpa using h201)
    simp [Client.SetUserStatus, jsonMarshalStatus, h1, Do_of_answers env log _ _ h, h204, h2,
      decode_errorsEnvelope]

/-- C4, at the server that answers 422 with the message `Status is invalid`: the four reads
and `SetUserStatus` (id 5) fail with exactly that message and return no result. -/
theorem error_envelope_is_reported_witness :
    (Client.Users envStatusInvalid scenarioClient []).1 =
      ([], some (GoError.new "Status is invalid")) ∧
    (Client.UsersWithFilter envStatusInvalid scenarioClient () []).1 =
      ([], some (GoError.new "Status is invalid")) ∧
    (Client.User envStatusInvalid scenarioClient 5 []).1 =
      (none, some (GoError.new "Status is invalid")) ∧
    (Client.UserByIdAndFilter envStatusInvalid scenarioClient 5 () []).1 =
      (none, some (GoError.new "Status is invalid")) ∧
    (Client.SetUserStatus envStatusInvalid scenarioClient ⟨⟨3⟩⟩ 5 []).1 =
      some (GoError.new "Status is invalid") := by
  have h := error_envelope_is_reported envStatusInvalid scenarioClient [] 422
    ["Status is invalid"]
  refine ⟨?_, ?_, ?_, ?_, ?_⟩
  · rw [h.1 (by decide) ⟨rfl, rfl⟩]
    rfl
  · rw [h.2.1 (by decide) () "https://r.example/users.json" rfl ⟨rfl, rfl⟩]
    rfl
  · rw [h.2.2.1 (by decide) 5 ⟨rfl, rfl⟩]
    rfl
  · rw [h.2.2.2.1 (by decide) 5 () "https://r.example/users/5.json" rfl ⟨rfl, rfl⟩]
    rfl
  · rw [h.2.2.2.2 (scenario_helper _) (by decide) (by decide) ⟨⟨3⟩⟩ 5 ⟨rfl, rfl⟩]
    rfl

/-- C5: whatever the status code, when the body of the response does not start with a JSON
value, each read operation -- `Users`, `totalCount`, `UsersWithFilter`, `User` and
`UserByIdAndFilter` -- returns no result (`[]`, 0, nil) together with the decoder's error. -/
theorem malformed_body_is_decode_error (env : Env M CF F) (c : Client) (log : Log) (code : Int)
    (text : String) :
    (Answers env log (usersRequest env c) ⟨code, .malformed text⟩ →
      Client.Users env c log = (([], some (GoError.scan text)), log ++ [usersRequest env c]) ∧
      Client.totalCount env c log =
        ((0, some (GoError.scan text)), log ++ [usersRequest env c])) ∧
    (∀ (filter : F) (uri : String),
      env.URLWithFilter c "/users.json" filter = .ok uri →
      Answers env log (filteredRequest c uri) ⟨code, .malformed text⟩ →
      Client.UsersWithFilter env c filter log =
        (([], some (GoError.scan text)), log ++ [filteredRequest c uri])) ∧
    (∀ id : Int,
      Answers env log (getRequest (userURL c id)) ⟨code, .malformed text⟩ →
      Client.User env c id log =
        ((none, some (GoError.scan text)), log ++ [getRequest (userURL c id)])) ∧
    (∀ (id : Int) (filter : F) (uri : String),
      env.URLWithFilter c ("/users/" ++ toString id ++ ".json") filter = .ok uri →
      Answers env log (filteredRequest c uri) ⟨code, .malformed text⟩ →
      Client.UserByIdAndFilter env c id filter log =
        ((none, some (GoError.scan text)), log ++ [filteredRequest c uri])) := by
  refine ⟨?_, ?_, ?_, ?_⟩
  · intro h
    constructor
    · simp [Client.Users, Get_of_answers env log _ _ h, decodeRead_malformed, usersRequest]
    · simp [Client.totalCount, Get_of_answers env log _ _ h, decodeRead_malformed, usersRequest]
  · intro filter uri hu h
    have h1 : env.NewRequest "GET" uri = none := h.1
    simp [Client.UsersWithFilter, hu, h1, Do_of_answers env log _ _ h, decodeRead_malformed]
  · intro id h
    simp [Client.User, Get_of_answers env log _ _ h, decodeRead_malformed]
  · intro id filter uri hu h
    have h1 : env.NewRequest "GET" uri = none := h.1
    simp [Client.UserByIdAndFilter, hu, h1, Do_of_answers env log _ _ h, decodeRead_malformed]

/-- C5, at the servers that answer 200 and 502 with an HTML page: the five reads return no
result and the decoder's error, with either status. -/
theorem malformed_body_is_decode_error_witness :
    ((Client.Users envNotJSON scenarioClient []).1 =
        ([], some (GoError.scan "invalid character '<' looking for beginning of value")) ∧
      (Client.totalCount envNotJSON scenarioClient []).1 =
        (0, some (GoError.scan "invalid character '<' looking for beginning of value")) ∧
      (Client.UsersWithFilter envNotJSON scenarioClient () []).1 =
        ([], some (GoError.scan "invalid character '<' looking for beginning of value")) ∧
      (Client.User envNotJSON scenarioClient 1 []).1 =
        (none, some (GoError.scan "invalid character '<' looking for beginning of value")) ∧
      (Client.UserByIdAndFilter envNotJSON scenarioClient 1 () []).1 =
        (none, some (GoError.scan "invalid character '<' looking for beginning of value"))) ∧
    ((Client.Users envBadGateway scenarioClient []).1 =
        ([], some (GoError.scan "invalid character '<' looking for beginning of value")) ∧
      (Client.User envBadGateway scenarioClient 1 []).1 =
        (none, some (GoError.scan "invalid character '<' looking for beginning of value"))) := by
  have h := malformed_body_is_decode_error envNotJSON scenarioClient [] 200
    "invalid character '<' looking for beginning of value"
  have g := malformed_body_is_decode_error envBadGateway scenarioClient [] 502
    "invalid character '<' looking for beginning of value"
  refine ⟨⟨?_, ?_, ?_, ?_, ?_⟩, ?_, ?_⟩
  · rw [(h.1 ⟨rfl, rfl⟩).1]
  · rw [(h.1 ⟨rfl, rfl⟩).2]
  · rw [h.2.1 () "https://r.example/users.json" rfl ⟨rfl, rfl⟩]
  · rw [h.2.2.1 1 ⟨rfl, rfl⟩]
  · rw [h.2.2.2 1 () "https://r.example/users/1.json" rfl ⟨rfl, rfl⟩]
  · rw [(g.1 ⟨rfl, rfl⟩).1]
  · rw [g.2.2.1 1 ⟨rfl, rfl⟩]

/-- C6: when the payload serializes to `s` and the transport answers the PUT with `res`,
`SetUserStatus` returns the nil error exactly when the status code of `res` is 204 or 201,
whatever the body of `res` is (the helper `isHTTPStatusSuccessful` testing membership). -/
theorem SetUserStatus_succeeds_iff (env : Env M CF F) (c : Client) (status : Status)
    (userID : Int) (log : Log) (s : String) (res : Response)
    (hhelper : HelperSpec env)
    (hs : jsonMarshalStatus status = .ok s)
    (hans : Answers env log (putRequest (setUserStatusURL env c userID) s) res) :
    (Client.SetUserStatus env c status userID log).1 = none ↔
      (res.StatusCode = 204 ∨ res.StatusCode = 201) := by
  have h1 : env.NewRequest "PUT" (setUserStatusURL env c userID) = none := hans.1
  unfold Client.SetUserStatus
  rw [hs]
  simp only [h1, Do_of_answers env log _ _ hans]
  by_cases h204 : res.StatusCode = 204
  · simp [h204]
  · by_cases h201 : res.StatusCode = 201
    · have hb : env.isHTTPStatusSuccessful res.StatusCode [201] = true :=
        (hhelper _ _).mpr (by simp [h201])
      rw [h201] at hb
      simp [h201, hb]
    · have hb : env.isHTTPStatusSuccessful res.StatusCode [201] = false := by
        cases hb : env.isHTTPStatusSuccessful res.StatusCode [201] with
        | false => rfl
        | true => exact absurd ((hhelper _ _).mp hb) (by simpa using h201)
      cases hd : Decode (errorsResultInto env) res.Body { Errors := [] } <;> simp [h204, h201, hb, hd]

/-- C6, at the server that answers 204 with an empty body: `SetUserStatus` for id 5
succeeds. -/
theorem SetUserStatus_succeeds_iff_witness :
    jsonMarshalStatus ⟨⟨3⟩⟩ = .ok "\x7b\"user\":\x7b\"status\":3\x7d\x7d" ∧
    (Client.SetUserStatus envNoContent scenarioClient ⟨⟨3⟩⟩ 5 []).1 = none :=
  ⟨rfl,
    (SetUserStatus_succeeds_iff envNoContent scenarioClient ⟨⟨3⟩⟩ 5 []
      "\x7b\"user\":\x7b\"status\":3\x7d\x7d" ⟨204, .malformed "EOF"⟩ (scenario_helper _)
      rfl ⟨rfl, rfl⟩).mpr (Or.inl rfl)⟩

/-- C7, as the code has it: when the total-count request is answered with status 200 and a
total count `N` that the decoder stores, the last offset of the loop, `100 * pageCount N`,
is at most the largest `int` of the build, and every page request is answered with status
200 and a list of users, then every value of the loop counter is an `int` (the sum
`i + 100` does not wrap), and `AllUsers` returns without error after issuing the total-count
request followed by exactly `pageCount N` page requests, page `k` being the GET of the list
URL with the pagination clause of `Limit` 100 and `Offset` `100 * k`, in increasing order;
for `0 ≤ N` that number is the ceiling of `N / 100`; and for `N ≤ 0` it issues the
total-count request only and returns the empty sequence without error. -/
theorem AllUsers_request_sequence (env : Env M CF F) (c : Client) (log : Log) (N : Int)
    (body0 : JSON)
    (hcount : Answers env log (usersRequest env c) ⟨200, .value body0⟩)
    (htotal : totalcountInto env body0 { TotalCount := 0 } = .ok { TotalCount := N })
    (hfit : 100 * (pageCount N : Int) ≤ env.intSize.maxInt)
    (hpage : ∀ k : Nat, 100 * (k : Int) < N → ∃ (v : JSON) (r : usersResult M CF),
      Answers env (afterPages env c log k) (usersRequest env (pageClient c k))
        ⟨200, .value v⟩ ∧
      usersResultInto env v { Users := [] } = .ok r) :
    (∀ k : Nat, k ≤ pageCount N →
      env.intSize.minInt ≤ 100 * (k : Int) ∧ 100 * (k : Int) ≤ env.intSize.maxInt) ∧
    (Client.AllUsers env c log).1.2 = none ∧
    (Client.AllUsers env c log).2.2 =
      log ++
        { Method := "GET",
          URL := c.endpoint ++ "/users.json?key=" ++ c.apikey ++ env.getPaginationClause c,
          Header := [], Body := "" } ::
        (List.range (pageCount N)).map
          (fun (k : Nat) =>
            { Method := "GET",
              URL := c.endpoint ++ "/users.json?key=" ++ c.apikey ++
                env.getPaginationClause { c with Limit := 100, Offset := 100 * (k : Int) },
              Header := [], Body := "" }) ∧
    (0 ≤ N → (pageCount N : Int) = ⌈(N : ℚ) / 100⌉) ∧
    (N ≤ 0 → Client.AllUsers env c log =
      (([], none), { c with Limit := 100, Offset := 0 },
        log ++ [{ Method := "GET",
                  URL := c.endpoint ++ "/users.json?key=" ++ c.apikey ++
                    env.getPaginationClause c,
                  Header := [], Body := "" }])) := by
  have h0 := totalCount_of_answers env c log body0 N hcount htotal
  rw [← afterPages_zero] at h0
  have hu : ∀ j, j < pageCount N →
      Client.Users env (pageClient c j) (afterPages env c log j) =
        (((Client.Users env (pageClient c j) (afterPages env c log j)).1.1, none),
          afterPages env c log (j + 1)) := by
    intro j hj
    obtain ⟨v, r, ha, hv⟩ := hpage j (pageCount_lt N j hj)
    rw [Users_of_answers env _ _ _ _ ha hv, afterPages_succ]
  have hrun := AllUsers_of_pages env c log N _ h0 hu
  refine ⟨?_, by rw [hrun], by rw [hrun]; rfl, pageCount_eq_ceil N, ?_⟩
  · intro k hk
    have hk1 : (k : Int) ≤ (pageCount N : Int) := Int.ofNat_le.mpr hk
    have hmin : env.intSize.minInt ≤ 0 := by cases env.intSize <;> decide
    constructor <;> omega
  · intro hN
    rw [hrun, pageCount_nonpos N hN]
    simp [afterPages, pageRequests, pageClient]
    rfl

/-- C7, at the server that holds 101 users (`N = 101`: the last offset 200 is an `int`, and
the requests are the total-count request, then the pages at the offsets 0 and 100) and at
the server that holds none (`N = 0`: the total-count request only, and the empty result). -/
theorem AllUsers_request_sequence_witness :
    (totalcountInto envTwoPages (listEnvelope ((List.range 100).map userJSON) 101)
        { TotalCount := 0 } = .ok { TotalCount := 101 } ∧
      100 * (pageCount 101 : Int) ≤ envTwoPages.intSize.maxInt ∧
      (Client.AllUsers envTwoPages scenarioClient []).1.2 = none ∧
      (Client.AllUsers envTwoPages scenarioClient []).2.2 =
        [{ Method := "GET", Header := [], Body := "",
           URL := "https://r.example/users.json?key=k1&limit=25&offset=5" },
         { Method := "GET", Header := [], Body := "",
           URL := "https://r.example/users.json?key=k1&limit=100&offset=0" },
         { Method := "GET", Header := [], Body := "",
           URL := "https://r.example/users.json?key=k1&limit=100&offset=100" }]) ∧
    Client.AllUsers envNoUsers scenarioClient [] =
      (([], none), { scenarioClient with Limit := 100, Offset := 0 },
        [{ Method := "GET", Header := [], Body := "",
           URL := "https://r.example/users.json?key=k1&limit=25&offset=5" }]) := by
  have h2 := AllUsers_request_sequence envTwoPages scenarioClient [] 101
    (listEnvelope ((List.range 100).map userJSON) 101) ⟨rfl, rfl⟩ rfl (by decide)
    (fun k hk => by
      have hk01 : k = 0 ∨ k = 1 := by omega
      rcases hk01 with rfl | rfl
      · exact ⟨listEnvelope ((List.range 100).map userJSON) 101, _, ⟨rfl, rfl⟩, rfl⟩
      · exact ⟨listEnvelope [userJSON 100] 101, _, ⟨rfl, rfl⟩, rfl⟩)
  have h0 := AllUsers_request_sequence envNoUsers scenarioClient [] 0
    (listEnvelope [] 0) ⟨rfl, rfl⟩ rfl (by decide) (fun k hk => by omega)
  refine ⟨⟨rfl, by decide, h2.2.1, ?_⟩, ?_⟩
  · rw [h2.2.2.1]
    decide
  · rw [h0.2.2.2.2 (le_refl 0)]
    rfl

/-- C7 fails as stated: a total count of 2^63, reported with status 200, is a total count
`N ≥ 0` with `pageCount N` pages to fetch, yet the decoder does not store it in an `int` of
64 bits, and `AllUsers` returns the decoder's error after the total-count request alone; the
same holds for a total count of 2^31 on a build whose `int` has 32 bits. -/
theorem AllUsers_rejects_count_beyond_int :
    (Answers envHugeCount [] (usersRequest envHugeCount scenarioClient)
        ⟨200, .value (listEnvelope [] 9223372036854775808)⟩ ∧
      Client.AllUsers envHugeCount scenarioClient [] =
        (([], some (GoError.unmarshalType "number 9223372036854775808" "int")), scenarioClient,
          [{ Method := "GET", Header := [], Body := "",
             URL := "https://r.example/users.json?key=k1&limit=25&offset=5" }]) ∧
      (Client.AllUsers envHugeCount scenarioClient []).1.2 ≠ none ∧
      pageCount 9223372036854775808 ≠ 0) ∧
    (Answers envHugeCount32 [] (usersRequest envHugeCount32 scenarioClient)
        ⟨200, .value (listEnvelope [] 2147483648)⟩ ∧
      Client.AllUsers envHugeCount32 scenarioClient [] =
        (([], some (GoError.unmarshalType "number 2147483648" "int")), scenarioClient,
          [{ Method := "GET", Header := [], Body := "",
             URL := "https://r.example/users.json?key=k1&limit=25&offset=5" }]) ∧
      (Client.AllUsers envHugeCount32 scenarioClient []).1.2 ≠ none ∧
      pageCount 2147483648 ≠ 0) := by
  constructor
  · rw [AllUsers_of_failing_count envHugeCount scenarioClient []
      (GoError.unmarshalType "number 9223372036854775808" "int") rfl]
    exact ⟨⟨rfl, rfl⟩, rfl, by decide, by decide⟩
  · rw [AllUsers_of_failing_count envHugeCount32 scenarioClient []
      (GoError.unmarshalType "number 2147483648" "int") rfl]
    exact ⟨⟨rfl, rfl⟩, rfl, by decide, by decide⟩

/-- C8, as the code has it: when every list request is answered with status 200 and the
list envelope of one user object with `id` 1 (and further members `rest`, none of them an
`id`) and total count 1, that object decoding to the user `u`, then `u.Id = 1`, `Users`
returns the one-element sequence `[u]`, and `AllUsers` returns the same sequence after
issuing exactly two requests: the total-count request and the request of page 0. -/
theorem AllUsers_one_user (env : Env M CF F) (c : Client) (log : Log)
    (rest : List (String × JSON)) (u : User M CF)
    (hu : userInto env (.obj (("id", .int 1) :: rest)) User.zero = .ok u)
    (hrest : ∀ kv ∈ rest, keyMatches "id" kv.1 = false)
    (hans : ∀ (d : Client) (log1 : Log), Answers env log1 (usersRequest env d)
      ⟨200, .value (listEnvelope [.obj (("id", .int 1) :: rest)] 1)⟩) :
    u.Id = 1 ∧
    (Client.Users env c log).1 = ([u], none) ∧
    (Client.AllUsers env c log).1 = ([u], none) ∧
    (Client.AllUsers env c log).2.2 =
      log ++ [usersRequest env c, usersRequest env (pageClient c 0)] ∧
    (Client.AllUsers env c log).2.2.length = log.length + 2 := by
  have hrun := AllUsers_same_page env c log _ u hu hans
  refine ⟨userInto_id_one env rest u hrest hu, ?_, by rw [hrun], by rw [hrun], ?_⟩
  · rw [Users_of_answers env c log _ _ (hans c log) (decode_listEnvelope_users env _ 1 u hu)]
  · rw [hrun]
    simp

/-- C8, at the one-user scenario: the user object decodes to `userOne`, whose `Id` is 1, and
`AllUsers` returns `[userOne]` after two requests. -/
theorem AllUsers_one_user_witness :
    userInto envOneUser (.obj [("id", .int 1), ("login", .str "admin")]) User.zero =
      .ok userOne ∧
    userOne.Id = 1 ∧
    (Client.AllUsers envOneUser scenarioClient []).1 = ([userOne], none) ∧
    (Client.AllUsers envOneUser scenarioClient []).2.2.length = 2 := by
  have h := AllUsers_one_user envOneUser scenarioClient [] [("login", .str "admin")] userOne
    rfl (by decide) (fun _ _ => ⟨rfl, rfl⟩)
  exact ⟨rfl, h.1, h.2.2.1, h.2.2.2.2⟩

/-- C8 fails as stated: in the one-user scenario (every list request is answered with status
200, one user with id 1 and total count 1) `AllUsers` returns that user after issuing two
requests, not one. -/
theorem AllUsers_two_requests_for_one_user :
    (Client.AllUsers envOneUser scenarioClient []).1 = ([userOne], none) ∧
    (Client.AllUsers envOneUser scenarioClient []).2.2 =
      [getRequest "https://r.example/users.json?key=k1&limit=25&offset=5",
       getRequest "https://r.example/users.json?key=k1&limit=100&offset=0"] ∧
    (Client.AllUsers envOneUser scenarioClient []).2.2.length ≠ 1 := by
  rw [AllUsers_same_page envOneUser scenarioClient [] userOneJSON userOne rfl
    (fun _ _ => ⟨rfl, rfl⟩)]
  exact ⟨rfl, by decide, by decide⟩

/-- C9: for every status code `n` that an `int` holds, `json.Marshal` of the `Status` with
`User.Status = n` is the text of the JSON object with the one member `user`, itself an
object with the one member `status` of value `n` in decimal; the request that
`SetUserStatus` sends is a PUT whose body is exactly that text; the decoder reads that text
as that JSON object; and decoding the marshalled text into a `Status` gives `User.Status = n`
again. -/
theorem status_round_trip (env : Env M CF F) (n : Int)
    (hmin : env.intSize.minInt ≤ n) (hmax : n ≤ env.intSize.maxInt) :
    jsonMarshalStatus ⟨⟨n⟩⟩ =
      .ok ("\x7b\"user\":\x7b\"status\":" ++ toString n ++ "\x7d\x7d") ∧
    (∀ (c : Client) (userID : Int) (log : Log),
      env.NewRequest "PUT" (setUserStatusURL env c userID) = none →
      (Client.SetUserStatus env c ⟨⟨n⟩⟩ userID log).2 =
        log ++ [{ Method := "PUT", URL := setUserStatusURL env c userID,
                  Header := [("Content-Type", "application/json")],
                  Body := "\x7b\"user\":\x7b\"status\":" ++ toString n ++ "\x7d\x7d" }]) ∧
    scanBody env ("\x7b\"user\":\x7b\"status\":" ++ toString n ++ "\x7d\x7d") =
      .value (.obj [("user", .obj [("status", .int n)])]) ∧
    (∀ s : String, jsonMarshalStatus ⟨⟨n⟩⟩ = .ok s →
      Decode (statusInto env) (scanBody env s) ⟨⟨0⟩⟩ = .ok ⟨⟨n⟩⟩) := by
  have hscan : scanBody env ("\x7b\"user\":\x7b\"status\":" ++ toString n ++ "\x7d\x7d") =
      .value (.obj [("user", .obj [("status", .int n)])]) := by
    have h := scanText_statusText n
    simp only [statusText] at h
    simp only [scanBody, h]
  refine ⟨rfl, ?_, hscan, ?_⟩
  · intro c userID log h1
    unfold Client.SetUserStatus
    simp only [jsonMarshalStatus, statusText, h1, Client.Do, putRequest]
    cases env.Do log _ with
    | error e => rfl
    | ok res =>
      simp only []
      split_ifs <;> first | rfl | (split <;> rfl)
  · intro s hs
    have hs1 : s = "\x7b\"user\":\x7b\"status\":" ++ toString n ++ "\x7d\x7d" := by
      simp only [jsonMarshalStatus, statusText] at hs
      exact (Except.ok.inj hs).symm
    have hu : keyMatches "user" "user" = true := by decide
    have hst : keyMatches "status" "status" = true := by decide
    rw [hs1, hscan]
    simp [Decode, statusInto, decodeStruct, decodeMembers, statusField, statusUserField, hu, hst,
      intInto_of_fits _ n _ hmin hmax, Except.map]

/-- C9, at the status codes 3 and -1 and the server that answers 204: the codes are in the
range of `int`, the body sent for user 5 is the marshalled text, and decoding the marshalled
text gives the code back. -/
theorem status_round_trip_witness :
    (envNoContent.intSize.minInt ≤ 3 ∧ 3 ≤ envNoContent.intSize.maxInt) ∧
    (Client.SetUserStatus envNoContent scenarioClient ⟨⟨3⟩⟩ 5 []).2 =
      [{ Method := "PUT", URL := "https://r.example/users/5.json?key=k1",
         Header := [("Content-Type", "application/json")],
         Body := "\x7b\"user\":\x7b\"status\":3\x7d\x7d" }] ∧
    Decode (statusInto envNoContent)
      (scanBody envNoContent "\x7b\"user\":\x7b\"status\":3\x7d\x7d") ⟨⟨0⟩⟩ = .ok ⟨⟨3⟩⟩ ∧
    Decode (statusInto envNoContent)
      (scanBody envNoContent "\x7b\"user\":\x7b\"status\":-1\x7d\x7d") ⟨⟨0⟩⟩ = .ok ⟨⟨-1⟩⟩ :=
  ⟨⟨by decide, by decide⟩,
    (status_round_trip envNoContent 3 (by decide) (by decide)).2.1 scenarioClient 5 [] rfl,
    (status_round_trip envNoContent 3 (by decide) (by decide)).2.2.2 _ rfl,
    (status_round_trip envNoContent (-1) (by decide) (by decide)).2.2.2 _ rfl⟩

/-- C10 fails on the code: with the API key `a%b`, `SetUserStatus` for user 5 puts to a URL
in which `fmt.Sprintf` has replaced `%b` by `%!b(MISSING)`, while `User` for the same id
gets the URL that ends in the API key itself. -/
theorem SetUserStatus_url_mangles_percent :
    (Client.SetUserStatus envNoContent { scenarioClient with apikey := "a%b" } ⟨⟨3⟩⟩ 5 []).2 =
      [putRequest "https://r.example/users/5.json?key=a%!b(MISSING)"
        "\x7b\"user\":\x7b\"status\":3\x7d\x7d"] ∧
    (Client.User envNoContent { scenarioClient with apikey := "a%b" } 5 []).2 =
      [getRequest "https://r.example/users/5.json?key=a%b"] ∧
    setUserStatusURL envNoContent { scenarioClient with apikey := "a%b" } 5 ≠
      userURL { scenarioClient with apikey := "a%b" } 5 := by
  decide

end Claims

end Redmine
